import Mathlib

/-!
# Microkernel server (`kernel/microkernel/k_server.c`)

A shallow embedding of `next_task_select` and of one pass of the `_k_server`
loop, together with the properties of the ready-queue scheduler, the command
envelope protocol and the dispatcher loop.

Conventions of the embedding:

* `uint32_t` values are natural numbers; only their low 32 bits are looked at.
* `int` values are integers (the priority index never leaves the range of the
  priority bitmap, so no wrap-around is modelled for it).
* a task pointer is `Option Nat`: `none` is `NULL`, `some a` is the address `a`;
  a command envelope is the raw word, whose value 0 is the null descriptor
  pointer.
* an array is a list; reading outside of it has no defined result (`none`).
* routines that live outside of `k_server.c` (command handlers, event and
  semaphore services, monitoring hooks, `fiber_yield`) are recorded in a trace
  of calls, and their effect on the kernel state is a parameter of the model.
-/

namespace KServer

/-! ## Build-time configuration

The constants below come from Kconfig and from `micro_private.h`; none of them
is defined in `k_server.c`, so they are parameters of the model. -/

/-- Build-time constants used by `k_server.c`. -/
structure config where
  CONFIG_NUM_TASK_PRIORITIES : Nat
  CONFIG_TASK_MONITOR : Bool
  CONFIG_WORKLOAD_MONITOR : Bool
  KERNEL_CMD_PACKET_TYPE : Nat
  KERNEL_CMD_EVENT_TYPE : Nat
  KERNEL_CMD_SEMAPHORE_TYPE : Nat
  KERNEL_CMD_TYPE_MASK : Nat
  MON_TSWAP : Nat
  MON_EVENT : Nat
  MON_KSERV : Nat

/-! ## Data model -/

/-- The fields of `struct k_task` that `k_server.c` reads. -/
structure k_task where
  id : Nat
  workspace : Nat
deriving DecidableEq, Repr

/-- A ready queue (`struct k_tqhd`): the chain of task addresses reached from
`head` by following the queue linkage, in insertion order. -/
structure k_tqhd where
  chain : List Nat
deriving DecidableEq, Repr

/-- The `head` pointer of a ready queue: `NULL` when the chain is empty. -/
def k_tqhd.head (q : k_tqhd) : Option Nat := q.chain.head?

/-- The kernel variables read or written by `k_server.c`, and the two views of
memory it dereferences (`struct k_task` records and the `Comm` field of
`struct k_args` records). -/
structure kernel where
  _k_task_priority_bitmap : List Nat
  _k_task_priority_list : List k_tqhd
  _k_current_task : Option Nat
  _nanokernel_task : Nat
  _nanokernel_fiber : Option Nat
  _k_command_stack : List Nat
  _k_monitor_mask : Nat
  task_at : Nat → k_task
  Comm_at : Nat → Nat

/-! ## Ready-queue scheduler -/

/-- Modelled from the spec: the bit scan behind `find_lsb_set`. It looks at the
bits `pos, pos + 1, ...` (`n` of them) of `op` and gives the 1-based position
of the first one that is set, `0` when there is none. -/
def lsb_scan (op : Nat) : Nat → Nat → Nat
  | 0, _ => 0
  | n + 1, pos => if op.testBit pos then pos + 1 else lsb_scan op n (pos + 1)

/-- Modelled from the spec: `find_lsb_set` is an architecture routine that is
not part of `k_server.c`. It locates the least-significant set bit of a 32-bit
word; bits are numbered from 1 and the result is 0 for the word 0 (the caller
subtracts 1 and tests the result against 0). -/
def find_lsb_set (op : Nat) : Nat := lsb_scan op 32 0

/-- Reading `a[i]` for an `int` index. -/
def array_at {α : Type} (a : List α) (i : Int) : Option α :=
  if i < 0 then none else a[i.toNat]?

/-- The loop of the multi-word configuration: `idx` is `K_PrioListIdx` on
entry of the iteration that reads the first word of `words`. -/
def prio_scan : List Nat → Int → Option Int
  | [], _ => none
  | w :: ws, idx =>
    if find_lsb_set w ≠ 0 then some (idx + (find_lsb_set w : Int))
    else prio_scan ws (idx + 32)

/-- The value of `K_PrioListIdx` when `next_task_select` reaches its
`return`. -/
def K_PrioListIdx (cfg : config) (k : kernel) : Option Int :=
  if cfg.CONFIG_NUM_TASK_PRIORITIES ≤ 32 then
    (k._k_task_priority_bitmap[0]?).map (fun w => (find_lsb_set w : Int) - 1)
  else
    prio_scan k._k_task_priority_bitmap (-1)

/-- The function `next_task_select`: the outer option is `none` when an array is
read out of bounds, the inner one is the returned task pointer. -/
def next_task_select (cfg : config) (k : kernel) : Option (Option Nat) :=
  match K_PrioListIdx cfg k with
  | none => none
  | some i => (array_at k._k_task_priority_list i).map k_tqhd.head

/-! ## Specification vocabulary for the scheduler -/

/-- Bit `i` of the whole priority bitmap: bit `i % 32` of word `i / 32`. -/
def bitmap_bit (bm : List Nat) (i : Nat) : Bool :=
  (bm.getD (i / 32) 0).testBit (i % 32)

/-- The level `i` is the lowest-numbered set bit of the bitmap. -/
def lowest_set_bit (bm : List Nat) (i : Nat) : Prop :=
  bitmap_bit bm i = true ∧ ∀ j, j < i → bitmap_bit bm j = false

/-- The sizes of the two scheduler arrays: one bitmap bit and one queue per
priority level. -/
def arrays_sized (cfg : config) (k : kernel) : Prop :=
  k._k_task_priority_bitmap.length = (cfg.CONFIG_NUM_TASK_PRIORITIES + 31) / 32 ∧
  k._k_task_priority_list.length = cfg.CONFIG_NUM_TASK_PRIORITIES

/-- The ready set: the tasks that are in some ready queue. -/
def ready (k : kernel) (t : Nat) : Prop :=
  ∃ q, q ∈ k._k_task_priority_list ∧ t ∈ q.chain

/-- The ready queue of level `i` exists and holds at least one task. -/
def level_ready (k : kernel) (i : Nat) : Bool :=
  match k._k_task_priority_list[i]? with
  | some q => !q.chain.isEmpty
  | none => false

/-- The data-model invariant: bit `i` of the bitmap is set exactly when the
ready queue of level `i` is not empty. -/
def bitmap_consistent (k : kernel) : Prop :=
  ∀ i, bitmap_bit k._k_task_priority_bitmap i = level_ready k i

/-- The level `p`, with queue `q`, is the highest-priority level (the one of
lowest index) whose ready queue is not empty. -/
def highest_ready (k : kernel) (p : Nat) (q : k_tqhd) : Prop :=
  k._k_task_priority_list[p]? = some q ∧ q.chain ≠ [] ∧
    ∀ j, j < p → level_ready k j = false

/-! ## Command envelopes and the dispatcher loop -/

/-- The three kinds of command envelope. -/
inductive cmd_kind where
  | Packet
  | EventSignal
  | SemaphoreGive
deriving DecidableEq, Repr

/-- One observable step of `_k_server`: a call to a routine (the arguments are
the values passed), the store into `_k_current_task`, or the read of
`pArgs->Comm` through a null `pArgs`, after which nothing is defined. -/
inductive action where
  | _k_task_monitor_args (pArgs : Nat)
  | null_dereference
  | Comm (handler : Nat) (pArgs : Nat)
  | _k_do_event_signal (event : Nat)
  | _k_sem_struct_value_update (n : Int) (sem : Nat)
  | fiber_yield
  | next_task_select
  | _k_workload_monitor_idle_start
  | _k_workload_monitor_idle_end
  | store_k_current_task (task : Nat)
  | _k_task_monitor (task : Option Nat) (data : Nat)
deriving DecidableEq, Repr

/-- A kernel state together with the steps taken to reach it. -/
abbrev run := kernel × List action

/-- The value of `~m` on 32 bits. -/
def not32 (m : Nat) : Nat := 2 ^ 32 - 1 - m % 2 ^ 32

/-- A call to a routine outside of `k_server.c`: the call is recorded and the
routine's effect `E` is applied to the kernel state. -/
def do_call (E : action → kernel → kernel) (c : action) (k : kernel) : run :=
  (E c k, [c])

/-- Modelled from the spec: `nano_fiber_stack_pop` on the command stack, a
collaborator outside of `k_server.c`. The channel is a stack: the pop takes the
most recently pushed envelope; the result is `none` when no envelope is
pending (the non-blocking pop returns 0, the blocking pop keeps waiting). -/
def nano_fiber_stack_pop (k : kernel) : Option (Nat × kernel) :=
  match k._k_command_stack with
  | [] => none
  | top :: rest => some (top, { k with _k_command_stack := rest })

/-- Modelled from the spec: the push of an envelope on the command stack
(`submit`), a collaborator outside of `k_server.c`. -/
def nano_isr_stack_push (k : kernel) (data : Nat) : kernel :=
  { k with _k_command_stack := data :: k._k_command_stack }

/-- The end of the loop body: the yield to a fiber that is ready to run. -/
def server_yield (E : action → kernel → kernel) (r : run) : run :=
  if r.1._nanokernel_fiber ≠ none then
    let y := do_call E action.fiber_yield r.1
    (y.1, r.2 ++ y.2)
  else r

/-- The body of the `do ... while` loop of `_k_server` for the envelope
`pArgs`: dispatch on the command type, then the yield to a ready fiber. A
packet envelope is used as a pointer to its descriptor as it is: when it is
null (the word 0) the read of `pArgs->Comm` is a null dereference, recorded as
the last step, and neither the handler call nor the yield takes place. -/
def server_command (cfg : config) (E : action → kernel → kernel) (pArgs : Nat)
    (k : kernel) : run :=
  let cmd_type := pArgs &&& cfg.KERNEL_CMD_TYPE_MASK
  if cmd_type = cfg.KERNEL_CMD_PACKET_TYPE then
    let m : run :=
      if cfg.CONFIG_TASK_MONITOR = true ∧ k._k_monitor_mask &&& cfg.MON_KSERV ≠ 0 then
        do_call E (action._k_task_monitor_args pArgs) k
      else (k, [])
    if pArgs = 0 then (m.1, m.2 ++ [action.null_dereference])
    else
      let h := do_call E (action.Comm (m.1.Comm_at pArgs) pArgs) m.1
      server_yield E (h.1, m.2 ++ h.2)
  else if cmd_type = cfg.KERNEL_CMD_EVENT_TYPE then
    let m : run :=
      if cfg.CONFIG_TASK_MONITOR = true ∧ k._k_monitor_mask &&& cfg.MON_EVENT ≠ 0 then
        do_call E (action._k_task_monitor_args pArgs) k
      else (k, [])
    let event := pArgs &&& not32 cfg.KERNEL_CMD_TYPE_MASK
    let h := do_call E (action._k_do_event_signal event) m.1
    server_yield E (h.1, m.2 ++ h.2)
  else
    let sem := pArgs &&& not32 cfg.KERNEL_CMD_TYPE_MASK
    server_yield E (do_call E (action._k_sem_struct_value_update 1 sem) k)

/-- The `do ... while` loop of `_k_server`, entered with the envelope `pArgs`
already popped: it ends when the non-blocking pop finds the stack empty. The
first argument bounds the number of envelopes handled. The result is `none`
when that bound is reached or when the loop body ends in a null
dereference. -/
def server_drain (cfg : config) (E : action → kernel → kernel) :
    Nat → Nat → kernel → Option run
  | 0, _, _ => none
  | fuel + 1, pArgs, k =>
    let r := server_command cfg E pArgs k
    if action.null_dereference ∈ r.2 then none
    else
      match nano_fiber_stack_pop r.1 with
      | none => some r
      | some (pArgs', k') =>
        (server_drain cfg E fuel pArgs' k').map (fun r' => (r'.1, r.2 ++ r'.2))

/-- The end of a pass of `_k_server`: the task selection and, when the
selected task is not the current one, the switch. The result is `none` when a
null pointer is dereferenced or an array is read out of bounds. -/
def server_select (cfg : config) (E : action → kernel → kernel) (k : kernel) :
    Option run :=
  match next_task_select cfg k with
  | none => none
  | some pNextTask =>
    if k._k_current_task ≠ pNextTask then
      match pNextTask with
      | none => none
      | some next =>
        let w : Option run :=
          if cfg.CONFIG_WORKLOAD_MONITOR = true then
            if (k.task_at next).id = 0 then
              some (do_call E action._k_workload_monitor_idle_start k)
            else
              match k._k_current_task with
              | none => none
              | some cur =>
                if (k.task_at cur).id = 0 then
                  some (do_call E action._k_workload_monitor_idle_end k)
                else some (k, [])
          else some (k, [])
        match w with
        | none => none
        | some w =>
          let k1 : kernel := { w.1 with _k_current_task := some next }
          let k2 : kernel := { k1 with _nanokernel_task := (k1.task_at next).workspace }
          let m : run :=
            if cfg.CONFIG_TASK_MONITOR = true ∧ k2._k_monitor_mask &&& cfg.MON_TSWAP ≠ 0 then
              do_call E (action._k_task_monitor k2._k_current_task 0) k2
            else (k2, [])
          some (m.1, [action.next_task_select] ++ w.2 ++
            [action.store_k_current_task next] ++ m.2)
    else some (k, [action.next_task_select])

/-- One pass of the `while (1)` loop of `_k_server`, from the wake-up of the
blocking pop to the end of the task switch. The result is `none` when no
envelope is pending (the fiber stays blocked), when `fuel` is too small for
the backlog, or when a null pointer is dereferenced. -/
def server_pass (cfg : config) (E : action → kernel → kernel) (fuel : Nat)
    (k : kernel) : Option run :=
  match nano_fiber_stack_pop k with
  | none => none
  | some (pArgs, k0) =>
    match server_drain cfg E fuel pArgs k0 with
    | none => none
    | some d =>
      match server_select cfg E d.1 with
      | none => none
      | some s => some (s.1, d.2 ++ s.2)

/-! ## Specification vocabulary for the dispatcher -/

/-- The kind and payload that the dispatcher reads from an envelope: the type
is `pArgs & KERNEL_CMD_TYPE_MASK`; a packet envelope is used as the descriptor
pointer as it is, an event or semaphore envelope with its type bits cleared. -/
def dispatcher_decode (cfg : config) (pArgs : Nat) : cmd_kind × Nat :=
  let cmd_type := pArgs &&& cfg.KERNEL_CMD_TYPE_MASK
  if cmd_type = cfg.KERNEL_CMD_PACKET_TYPE then (cmd_kind.Packet, pArgs)
  else if cmd_type = cfg.KERNEL_CMD_EVENT_TYPE then
    (cmd_kind.EventSignal, pArgs &&& not32 cfg.KERNEL_CMD_TYPE_MASK)
  else (cmd_kind.SemaphoreGive, pArgs &&& not32 cfg.KERNEL_CMD_TYPE_MASK)

/-- The envelope is a packet envelope whose descriptor pointer is null. -/
def null_packet (cfg : config) (pArgs : Nat) : Prop :=
  pArgs &&& cfg.KERNEL_CMD_TYPE_MASK = cfg.KERNEL_CMD_PACKET_TYPE ∧ pArgs = 0

/-- The steps that are calls of one of the three handlers. -/
def is_handler : action → Bool
  | action.Comm _ _ => true
  | action._k_do_event_signal _ => true
  | action._k_sem_struct_value_update _ _ => true
  | _ => false

/-- The steps that are calls of the envelope monitoring hook. -/
def is_monitor_args : action → Bool
  | action._k_task_monitor_args _ => true
  | _ => false

/-- The kind and payload handled by a handler call. -/
def handled_by : action → Option (cmd_kind × Nat)
  | action.Comm _ pArgs => some (cmd_kind.Packet, pArgs)
  | action._k_do_event_signal event => some (cmd_kind.EventSignal, event)
  | action._k_sem_struct_value_update _ sem => some (cmd_kind.SemaphoreGive, sem)
  | _ => none

/-- The steps of the yield at the end of the loop body, taken in state `k`. -/
def yield_steps (k : kernel) : List action :=
  if k._nanokernel_fiber ≠ none then [action.fiber_yield] else []

/-- The read of `_k_current_task->id` in the selection of task `next` has a
defined result: it is made when workload monitoring is configured and `next`
is not the idle task, and then `_k_current_task` is not null. -/
def current_readable (cfg : config) (k : kernel) (next : Nat) : Prop :=
  cfg.CONFIG_WORKLOAD_MONITOR = true → (k.task_at next).id ≠ 0 →
    k._k_current_task ≠ none

/-- The idle hook called by a switch to `next` in state `k`, if any. -/
def idle_hook (cfg : config) (k : kernel) (next : Nat) : Option action :=
  if cfg.CONFIG_WORKLOAD_MONITOR = true then
    if (k.task_at next).id = 0 then some action._k_workload_monitor_idle_start
    else
      match k._k_current_task with
      | some cur =>
        if (k.task_at cur).id = 0 then some action._k_workload_monitor_idle_end
        else none
      | none => none
  else none

/-- The steps of the workload-monitor block of a switch to `next`. -/
def idle_hook_steps (cfg : config) (k : kernel) (next : Nat) : List action :=
  (idle_hook cfg k next).toList

/-- The state after the workload-monitor block of a switch to `next`. -/
def idle_hook_state (cfg : config) (E : action → kernel → kernel) (k : kernel)
    (next : Nat) : kernel :=
  match idle_hook cfg k next with
  | some c => E c k
  | none => k

/-- The two stores of a switch to `next`: `_k_current_task` and
`_nanokernel.task`. -/
def switched (k : kernel) (next : Nat) : kernel :=
  { k with _k_current_task := some next,
           _nanokernel_task := (k.task_at next).workspace }

/-- The steps of the task-monitor block that ends a switch to `next`. -/
def switch_monitor_steps (cfg : config) (k : kernel) (next : Nat) : List action :=
  if cfg.CONFIG_TASK_MONITOR = true ∧ k._k_monitor_mask &&& cfg.MON_TSWAP ≠ 0 then
    [action._k_task_monitor (some next) 0]
  else []

/-- The state after the task-monitor block that ends a switch to `next`. -/
def switch_monitor_state (cfg : config) (E : action → kernel → kernel) (k : kernel)
    (next : Nat) : kernel :=
  if cfg.CONFIG_TASK_MONITOR = true ∧ k._k_monitor_mask &&& cfg.MON_TSWAP ≠ 0 then
    E (action._k_task_monitor (some next) 0) k
  else k

/-- The steps that belong to the selection and switch part of a pass. -/
def is_switch_step : action → Bool
  | action.next_task_select => true
  | action._k_workload_monitor_idle_start => true
  | action._k_workload_monitor_idle_end => true
  | action.store_k_current_task _ => true
  | action._k_task_monitor _ _ => true
  | _ => false

/-- The routines outside of `k_server.c` leave the command stack as it is:
they submit no envelope. -/
def no_submission (E : action → kernel → kernel) : Prop :=
  ∀ c k, (E c k)._k_command_stack = k._k_command_stack

/-- The monitoring hooks. -/
def is_hook : action → Bool
  | action._k_task_monitor_args _ => true
  | action._k_workload_monitor_idle_start => true
  | action._k_workload_monitor_idle_end => true
  | action._k_task_monitor _ _ => true
  | _ => false

/-- The monitoring hooks are observers: they leave the kernel state as it
is. -/
def hooks_observe (E : action → kernel → kernel) : Prop :=
  ∀ c k, is_hook c = true → E c k = k

/-! ## Sample states used to instantiate the theorems -/

/-- A configuration with 16 priority levels and the command constants of
`micro_private.h`. -/
def cfg16 : config :=
  config.mk 16 true true 0 1 2 3 1 8 4

/-- A configuration with 40 priority levels (two bitmap words). -/
def cfg40 : config :=
  config.mk 40 true true 0 1 2 3 1 8 4

/-- The record of the task at address `a` in the sample memory: the task at
address 100 is the idle task (identifier 0). -/
def sample_task (a : Nat) : k_task := k_task.mk (a - 100) (a + 1000)

/-- A sample kernel state over the sample memory. -/
def sample_kernel (bm : List Nat) (pl : List k_tqhd) (cur : Option Nat)
    (stack : List Nat) (mask : Nat) : kernel :=
  kernel.mk bm pl cur 0 none stack mask sample_task (fun a => a + 7)

/-- A table of `n` ready queues, empty except at levels `p1` and `p2`. -/
def sample_queues (n p1 : Nat) (c1 : List Nat) (p2 : Nat) (c2 : List Nat) : List k_tqhd :=
  ((List.replicate n (k_tqhd.mk [])).set p1 (k_tqhd.mk c1)).set p2 (k_tqhd.mk c2)

/-- Levels 3 and 15 are ready: task 103 at level 3, the idle task at level 15. -/
def k_3_15 : kernel :=
  sample_kernel [2 ^ 3 + 2 ^ 15] (sample_queues 16 3 [103] 15 [100]) (some 100) [] 0

/-- Only the idle task, at level 15, is ready. -/
def k_15 : kernel :=
  sample_kernel [2 ^ 15] (sample_queues 16 3 [] 15 [100]) (some 100) [] 0

/-- Two bitmap words: task 135 at level 35 and the idle task at level 39. -/
def k_35_39 : kernel :=
  sample_kernel [0, 2 ^ 3 + 2 ^ 7] (sample_queues 40 35 [135] 39 [100]) (some 100) [] 0

/-- Tasks 103 then 104 were queued at level 3; the idle task is at level 15. -/
def k_fifo : kernel :=
  sample_kernel [2 ^ 3 + 2 ^ 15] (sample_queues 16 3 [103, 104] 15 [100]) (some 100) [] 0

/-- A sample effect of the outside routines: a semaphore or event service makes
the task 103 ready at level 3 by setting its bitmap bit and queue; the others
change nothing. -/
def sample_effect : action → kernel → kernel
  | action._k_sem_struct_value_update _ _, k =>
    { k with _k_task_priority_bitmap := [2 ^ 3 + 2 ^ 15],
             _k_task_priority_list := sample_queues 16 3 [103] 15 [100] }
  | _, k => k

/-- A state with every monitoring class enabled (`_k_monitor_mask` all ones)
and only the idle task ready. -/
def k_monitored : kernel :=
  sample_kernel [2 ^ 15] (sample_queues 16 3 [] 15 [100]) (some 100) [] 4294967295

/-- Two packet envelopes, for the descriptors at 8192 and then at 8200, pushed
back-to-back on the empty command stack of `k_15`. -/
def k_two_packets : kernel :=
  nano_isr_stack_push (nano_isr_stack_push k_15 8192) 8200

/-- The idle task is current and the only ready task, and one SemaphoreGive
envelope is pending (its handling makes task 103 ready under
`sample_effect`). -/
def k_wake : kernel :=
  sample_kernel [2 ^ 15] (sample_queues 16 3 [] 15 [100]) (some 100) [8194] 1

/-- Task 103 is current, only the idle task is ready, and one packet envelope
is pending. -/
def k_sleep : kernel :=
  sample_kernel [2 ^ 15] (sample_queues 16 3 [] 15 [100]) (some 103) [8192] 0

/-- A backlog of three envelopes with the null packet envelope in the
middle. -/
def k_null_packet : kernel :=
  nano_isr_stack_push (nano_isr_stack_push (nano_isr_stack_push k_15 8192) 0) 8200

end KServer

/-!
# Sample GATT write handlers (`samples/bluetooth/peripheral/src/main.c`)

The four attribute write handlers of the peripheral sample and the static
buffers they write to. A buffer is the list of its bytes. `int` and `size_t`
are 32 bits wide, as on every target of the sample: the `uint16_t` arguments
are promoted to `int` before they are added, and `sizeof(signed_value)` is 4.
-/

namespace Peripheral

/-- The object `vnd_long_value`: `struct vnd_long_value` with its two arrays of
`MAX_DATA` bytes. -/
structure vnd_long_value where
  buf : List Nat
  data : List Nat
deriving DecidableEq, Repr

/-- The static objects of `main.c` that the write handlers touch; each handler
receives its buffer as `attr->user_data`, bound in the attribute tables
`cts_attrs` and `vnd_attrs`. -/
structure statics where
  ct : List Nat
  ct_update : Nat
  vnd_value : List Nat
  vnd_long_value : vnd_long_value
  signed_value : List Nat
deriving DecidableEq, Repr

/-- The value of `MAX_DATA`. -/
def MAX_DATA : Nat := 74

/-- The declared sizes of the objects: `ct[10]`, the six bytes of `vnd_value`,
`buf[MAX_DATA]`, `data[MAX_DATA]` and the four bytes of the `int`
`signed_value`. -/
def sized (s : statics) : Prop :=
  s.ct.length = 10 ∧ s.vnd_value.length = 6 ∧
  s.vnd_long_value.buf.length = MAX_DATA ∧ s.vnd_long_value.data.length = MAX_DATA ∧
  s.signed_value.length = 4

/-- The C routine `memcpy(dst + off, src, n)` where `dst` is an object of
`dst.length` bytes and `src` an object of `src.length` bytes: it has no defined
result (`none`) when it would write past the end of `dst` or read past the end
of `src`. -/
def memcpy (dst : List Nat) (off : Nat) (src : List Nat) (n : Nat) : Option (List Nat) :=
  if off + n ≤ dst.length ∧ n ≤ src.length then
    some (dst.take off ++ (src.take n ++ dst.drop (off + n)))
  else none

/-- The value of `offset + len` as the handlers compare it with a `sizeof`:
the two `uint16_t` values are promoted to `int`, added, and the sum is converted
to the 32-bit `size_t`. -/
def offset_plus_len (offset len : Nat) : Nat :=
  (offset % 2 ^ 16 + len % 2 ^ 16) % 2 ^ 32

/-- The handler `write_ct`; `err` is the value of
`BT_GATT_ERR(BT_ATT_ERR_INVALID_OFFSET)`, a macro of the Bluetooth headers. -/
def write_ct (err : Int) (s : statics) (buf : List Nat) (len offset : Nat) :
    Option (Int × statics) :=
  if offset_plus_len offset len > 10 then some (err, s)
  else
    match memcpy s.ct (offset % 2 ^ 16) buf (len % 2 ^ 16) with
    | none => none
    | some value => some (((len % 2 ^ 16 : Nat) : Int), { s with ct := value, ct_update := 1 })

/-- The handler `write_vnd`. -/
def write_vnd (err : Int) (s : statics) (buf : List Nat) (len offset : Nat) :
    Option (Int × statics) :=
  if offset_plus_len offset len > 6 then some (err, s)
  else
    match memcpy s.vnd_value (offset % 2 ^ 16) buf (len % 2 ^ 16) with
    | none => none
    | some value => some (((len % 2 ^ 16 : Nat) : Int), { s with vnd_value := value })

/-- The handler `write_long_vnd`. -/
def write_long_vnd (err : Int) (s : statics) (buf : List Nat) (len offset : Nat) :
    Option (Int × statics) :=
  if offset_plus_len offset len > MAX_DATA then some (err, s)
  else
    match memcpy s.vnd_long_value.buf (offset % 2 ^ 16) buf (len % 2 ^ 16) with
    | none => none
    | some value =>
      some (((len % 2 ^ 16 : Nat) : Int),
        { s with vnd_long_value := { s.vnd_long_value with buf := value } })

/-- The handler `write_signed`. -/
def write_signed (err : Int) (s : statics) (buf : List Nat) (len offset : Nat) :
    Option (Int × statics) :=
  if offset_plus_len offset len > 4 then some (err, s)
  else
    match memcpy s.signed_value (offset % 2 ^ 16) buf (len % 2 ^ 16) with
    | none => none
    | some value => some (((len % 2 ^ 16 : Nat) : Int), { s with signed_value := value })

/-! ## Specification vocabulary for the write handlers -/

/-- The contract of a write on a buffer of `size` bytes holding `before`:
`result` is the returned value with the buffer afterwards. The write is
rejected, with the buffer unchanged, exactly when `offset + len` exceeds
`size`; otherwise `len` is returned, the bytes `[offset, offset + len)` are
those of the input and every other byte is unchanged. -/
def write_contract (size : Nat) (err : Int) (before buf : List Nat) (len offset : Nat)
    (result : Option (Int × List Nat)) : Prop :=
  ∃ ret after, result = some (ret, after) ∧
    after.length = size ∧
    ((ret = err ∧ after = before) ↔ size < offset + len) ∧
    (offset + len ≤ size →
      ret = (len : Int) ∧
      (∀ i, offset ≤ i → i < offset + len → after[i]? = buf[i - offset]?) ∧
      (∀ i, (i < offset ∨ offset + len ≤ i) → after[i]? = before[i]?))

/-- The initial values of the static objects, with the current time of
`generate_current_time` in `ct`. -/
def initial_statics : statics :=
  statics.mk [223, 7, 5, 30, 12, 45, 30, 1, 0, 0] 0 [86, 101, 110, 100, 111, 114]
    (vnd_long_value.mk ([86, 101, 110, 100, 111, 114] ++ List.replicate 68 0)
      ([86, 101, 110, 100, 111, 114] ++ List.replicate 68 0))
    [0, 0, 0, 0]

end Peripheral

namespace KServer

/-! ## Lemmas on the bit scan -/

theorem lsb_scan_zero (op : Nat) : ∀ n pos, lsb_scan op n pos = 0 →
    ∀ j, pos ≤ j → j < pos + n → op.testBit j = false := by
  intro n
  induction n with
  | zero => intro pos _ j h1 h2; omega
  | succ n ih =>
    intro pos h j h1 h2
    unfold lsb_scan at h
    by_cases hb : op.testBit pos = true
    · simp [hb] at h
    · simp [hb] at h
      rcases Nat.eq_or_lt_of_le h1 with heq | hlt
      · subst heq; simpa using hb
      · exact ih (pos + 1) h j hlt (by omega)

theorem lsb_scan_succ (op : Nat) : ∀ n pos r, lsb_scan op n pos = r + 1 →
    pos ≤ r ∧ r < pos + n ∧ op.testBit r = true ∧
      ∀ j, pos ≤ j → j < r → op.testBit j = false := by
  intro n
  induction n with
  | zero => intro pos r h; simp [lsb_scan] at h
  | succ n ih =>
    intro pos r h
    unfold lsb_scan at h
    by_cases hb : op.testBit pos = true
    · simp [hb] at h
      subst h
      exact ⟨le_refl _, by omega, hb, fun j h1 h2 => by omega⟩
    · simp [hb] at h
      obtain ⟨h1, h2, h3, h4⟩ := ih (pos + 1) r h
      refine ⟨by omega, by omega, h3, ?_⟩
      intro j hj1 hj2
      rcases Nat.eq_or_lt_of_le hj1 with heq | hlt
      · subst heq; simpa using hb
      · exact h4 j hlt hj2

theorem find_lsb_set_zero (w : Nat) (h : find_lsb_set w = 0) :
    ∀ j, j < 32 → w.testBit j = false := by
  intro j hj
  exact lsb_scan_zero w 32 0 h j (Nat.zero_le _) (by omega)

theorem find_lsb_set_succ (w r : Nat) (h : find_lsb_set w = r + 1) :
    r < 32 ∧ w.testBit r = true ∧ ∀ j, j < r → w.testBit j = false := by
  obtain ⟨_, h2, h3, h4⟩ := lsb_scan_succ w 32 0 r h
  exact ⟨by omega, h3, fun j hj => h4 j (Nat.zero_le _) hj⟩

theorem bitmap_bit_head (w : Nat) (ws : List Nat) (j : Nat) (hj : j < 32) :
    bitmap_bit (w :: ws) j = w.testBit j := by
  simp [bitmap_bit, Nat.div_eq_of_lt hj, Nat.mod_eq_of_lt hj]

theorem bitmap_bit_tail (w : Nat) (ws : List Nat) (j : Nat) :
    bitmap_bit (w :: ws) (j + 32) = bitmap_bit ws j := by
  simp [bitmap_bit, Nat.add_div_right, Nat.add_mod_right]

theorem lowest_set_bit_unique (bm : List Nat) (i j : Nat)
    (hi : lowest_set_bit bm i) (hj : lowest_set_bit bm j) : i = j := by
  rcases Nat.lt_trichotomy i j with h | h | h
  · have := hj.2 i h; rw [hi.1] at this; cases this
  · exact h
  · have := hi.2 j h; rw [hj.1] at this; cases this

/-- The first word with a set bit decides the scan of the whole bitmap. -/
theorem prio_scan_lowest : ∀ (ws : List Nat) (idx : Int) (i : Nat),
    lowest_set_bit ws i → prio_scan ws idx = some (idx + 1 + (i : Int)) := by
  intro ws
  induction ws with
  | nil =>
    intro idx i h
    have := h.1
    simp [bitmap_bit] at this
  | cons w ws ih =>
    intro idx i h
    unfold prio_scan
    by_cases hz : find_lsb_set w = 0
    · have hw := find_lsb_set_zero w hz
      have hi32 : 32 ≤ i := by
        by_contra hlt
        have hlt : i < 32 := by omega
        have := h.1
        rw [bitmap_bit_head w ws i hlt, hw i hlt] at this
        cases this
      obtain ⟨i', rfl⟩ : ∃ i', i = i' + 32 := ⟨i - 32, by omega⟩
      have hlow : lowest_set_bit ws i' := by
        refine ⟨by simpa [bitmap_bit_tail] using h.1, ?_⟩
        intro j hj
        have := h.2 (j + 32) (by omega)
        simpa [bitmap_bit_tail] using this
      rw [if_neg (not_not.mpr hz), ih (idx + 32) i' hlow]
      congr 1
      push_cast
      ring
    · obtain ⟨r, hr⟩ : ∃ r, find_lsb_set w = r + 1 :=
        ⟨find_lsb_set w - 1, by omega⟩
      obtain ⟨hr32, hset, hlow⟩ := find_lsb_set_succ w r hr
      have hlr : lowest_set_bit (w :: ws) r := by
        refine ⟨by rw [bitmap_bit_head w ws r hr32]; exact hset, ?_⟩
        intro j hj
        rw [bitmap_bit_head w ws j (by omega)]
        exact hlow j hj
      have : i = r := lowest_set_bit_unique _ _ _ h hlr
      subst this
      rw [if_pos hz, hr]
      congr 1
      push_cast
      ring

/-- The index computed by `next_task_select` is the lowest set bit, in both
configurations. -/
theorem K_PrioListIdx_lowest (cfg : config) (k : kernel) (i : Nat)
    (hsz : arrays_sized cfg k)
    (hlow : lowest_set_bit k._k_task_priority_bitmap i) :
    K_PrioListIdx cfg k = some (i : Int) := by
  unfold K_PrioListIdx
  split
  · rename_i hN
    have hlen : k._k_task_priority_bitmap.length ≤ 1 := by
      rw [hsz.1]; omega
    match hbm : k._k_task_priority_bitmap with
    | [] =>
      have := hlow.1
      simp [hbm, bitmap_bit] at this
    | w :: ws =>
      have hws : ws = [] := by
        rw [hbm] at hlen
        simp at hlen
        exact hlen
      subst hws
      rw [hbm] at hlow
      have hi32 : i < 32 := by
        by_contra hge
        have := hlow.1
        obtain ⟨i', rfl⟩ : ∃ i', i = i' + 32 := ⟨i - 32, by omega⟩
        rw [bitmap_bit_tail] at this
        simp [bitmap_bit] at this
      have hnz : find_lsb_set w ≠ 0 := by
        intro hz
        have := hlow.1
        rw [bitmap_bit_head w [] i hi32, find_lsb_set_zero w hz i hi32] at this
        cases this
      obtain ⟨r, hr⟩ : ∃ r, find_lsb_set w = r + 1 :=
        ⟨find_lsb_set w - 1, by omega⟩
      obtain ⟨hr32, hset, hlo⟩ := find_lsb_set_succ w r hr
      have hlr : lowest_set_bit [w] r := by
        refine ⟨by rw [bitmap_bit_head w [] r hr32]; exact hset, ?_⟩
        intro j hj
        rw [bitmap_bit_head w [] j (by omega)]
        exact hlo j hj
      have : i = r := lowest_set_bit_unique _ _ _ hlow hlr
      subst this
      simp [hr]
  · have := prio_scan_lowest k._k_task_priority_bitmap (-1) i hlow
    rw [this]
    congr 1
    ring

/-- A bit that is set lies in a word of the bitmap. -/
theorem bitmap_bit_in_words (bm : List Nat) (j : Nat) (h : bitmap_bit bm j = true) :
    j < 32 * bm.length := by
  by_contra hge
  have hlen : bm.length ≤ j / 32 := by
    rw [Nat.le_div_iff_mul_le (by decide)]
    omega
  unfold bitmap_bit at h
  rw [List.getD_eq_default _ _ hlen] at h
  simp at h

/-- When some bit is set there is a lowest-numbered one. -/
theorem exists_lowest_set_bit (bm : List Nat) (j : Nat) (h : bitmap_bit bm j = true) :
    ∃ i, i ≤ j ∧ lowest_set_bit bm i := by
  classical
  have hex : ∃ n, bitmap_bit bm n = true := ⟨j, h⟩
  refine ⟨Nat.find hex, Nat.find_min' hex h, Nat.find_spec hex, ?_⟩
  intro m hm
  have := Nat.find_min hex hm
  simpa using this

/-- The task returned when the lowest set bit and its queue are known. -/
theorem next_task_select_of_lowest (cfg : config) (k : kernel) (i : Nat) (q : k_tqhd)
    (hsz : arrays_sized cfg k)
    (hlow : lowest_set_bit k._k_task_priority_bitmap i)
    (hq : k._k_task_priority_list[i]? = some q) :
    next_task_select cfg k = some q.head := by
  unfold next_task_select
  rw [K_PrioListIdx_lowest cfg k i hsz hlow]
  simp [array_at, hq]

theorem level_ready_iff (k : kernel) (i : Nat) :
    level_ready k i = true ↔
      ∃ q, k._k_task_priority_list[i]? = some q ∧ q.chain ≠ [] := by
  unfold level_ready
  cases h : k._k_task_priority_list[i]? with
  | none => simp
  | some q => cases hc : q.chain <;> simp [hc]

/-- The invariant follows from its check on the finitely many levels that have
a bitmap bit or a queue. -/
theorem bitmap_consistent_of_bounded (k : kernel) (n : Nat)
    (hb : 32 * k._k_task_priority_bitmap.length ≤ n)
    (hl : k._k_task_priority_list.length ≤ n)
    (h : ∀ i, i < n → bitmap_bit k._k_task_priority_bitmap i = level_ready k i) :
    bitmap_consistent k := by
  intro i
  by_cases hi : i < n
  · exact h i hi
  · have h1 : bitmap_bit k._k_task_priority_bitmap i = false := by
      cases hb1 : bitmap_bit k._k_task_priority_bitmap i with
      | false => rfl
      | true => have := bitmap_bit_in_words _ i hb1; omega
    have h2 : level_ready k i = false := by
      unfold level_ready
      rw [List.getElem?_eq_none (by omega)]
    rw [h1, h2]

/-- Under the data-model invariant the highest-priority ready level is the
lowest set bit of the bitmap. -/
theorem lowest_of_highest_ready (k : kernel) (p : Nat) (q : k_tqhd)
    (hinv : bitmap_consistent k) (hp : highest_ready k p q) :
    lowest_set_bit k._k_task_priority_bitmap p := by
  refine ⟨?_, ?_⟩
  · rw [hinv p, level_ready_iff]
    exact ⟨q, hp.1, hp.2.1⟩
  · intro j hj
    rw [hinv j]
    exact hp.2.2 j hj

/-! ## Theorems on the ready-queue scheduler -/

/-- C1: in a scheduler state (one bitmap bit and one ready queue per priority
level) in which at least one bitmap bit is set, `next_task_select` returns the
head of the ready queue whose index is the lowest-numbered set bit of the whole
bitmap, bit `b` of word `w` counting as level `32 * w + b`, in the single-word
and in the multi-word configuration; no level below it has its bit set. -/
theorem next_task_select_lowest_set_bit (cfg : config) (k : kernel) (j : Nat)
    (hsz : arrays_sized cfg k)
    (hlev : ∀ l, l < 32 * k._k_task_priority_bitmap.length →
      bitmap_bit k._k_task_priority_bitmap l = true → l < cfg.CONFIG_NUM_TASK_PRIORITIES)
    (hbit : bitmap_bit k._k_task_priority_bitmap j = true) :
    ∃ i q, i ≤ j ∧
      bitmap_bit k._k_task_priority_bitmap i = true ∧
      (∀ l, l < i → bitmap_bit k._k_task_priority_bitmap l = false) ∧
      K_PrioListIdx cfg k = some (i : Int) ∧
      k._k_task_priority_list[i]? = some q ∧
      next_task_select cfg k = some q.head := by
  obtain ⟨i, hij, hlow⟩ := exists_lowest_set_bit _ j hbit
  have hiN : i < k._k_task_priority_list.length := by
    rw [hsz.2]
    exact hlev i (bitmap_bit_in_words _ i hlow.1) hlow.1
  refine ⟨i, k._k_task_priority_list[i], hij, hlow.1, hlow.2,
    K_PrioListIdx_lowest cfg k i hsz hlow, List.getElem?_eq_getElem hiN, ?_⟩
  exact next_task_select_of_lowest cfg k i _ hsz hlow (List.getElem?_eq_getElem hiN)

/-- Witness of C1: with bits 3 and 15 set the head of level 3 is returned, with
only bit 15 set the head of level 15, and in a two-word bitmap with bits 35 and
39 set the head of level 35. -/
theorem next_task_select_lowest_set_bit_witness :
    (next_task_select cfg16 k_3_15 = some (some 103) ∧
      ∃ i q, i ≤ 15 ∧
        bitmap_bit k_3_15._k_task_priority_bitmap i = true ∧
        (∀ l, l < i → bitmap_bit k_3_15._k_task_priority_bitmap l = false) ∧
        K_PrioListIdx cfg16 k_3_15 = some (i : Int) ∧
        k_3_15._k_task_priority_list[i]? = some q ∧
        next_task_select cfg16 k_3_15 = some q.head) ∧
    (next_task_select cfg16 k_15 = some (some 100) ∧
      ∃ i q, i ≤ 15 ∧
        bitmap_bit k_15._k_task_priority_bitmap i = true ∧
        (∀ l, l < i → bitmap_bit k_15._k_task_priority_bitmap l = false) ∧
        K_PrioListIdx cfg16 k_15 = some (i : Int) ∧
        k_15._k_task_priority_list[i]? = some q ∧
        next_task_select cfg16 k_15 = some q.head) ∧
    (next_task_select cfg40 k_35_39 = some (some 135) ∧
      ∃ i q, i ≤ 39 ∧
        bitmap_bit k_35_39._k_task_priority_bitmap i = true ∧
        (∀ l, l < i → bitmap_bit k_35_39._k_task_priority_bitmap l = false) ∧
        K_PrioListIdx cfg40 k_35_39 = some (i : Int) ∧
        k_35_39._k_task_priority_list[i]? = some q ∧
        next_task_select cfg40 k_35_39 = some q.head) :=
  ⟨⟨by decide, next_task_select_lowest_set_bit cfg16 k_3_15 15
      ⟨by decide, by decide⟩ (by decide) (by decide)⟩,
   ⟨by decide, next_task_select_lowest_set_bit cfg16 k_15 15
      ⟨by decide, by decide⟩ (by decide) (by decide)⟩,
   ⟨by decide, next_task_select_lowest_set_bit cfg40 k_35_39 39
      ⟨by decide, by decide⟩ (by decide) (by decide)⟩⟩

/-- C2: in every state that satisfies the data-model invariant (bit `i` set iff
ready queue `i` is not empty) and whose idle level has its bit set,
`next_task_select` computes an index in `[0, CONFIG_NUM_TASK_PRIORITIES)` and
returns a non-null task that is a member of the ready set. -/
theorem next_task_select_total (cfg : config) (k : kernel) (idle : Nat)
    (hsz : arrays_sized cfg k)
    (hinv : bitmap_consistent k)
    (hidle : bitmap_bit k._k_task_priority_bitmap idle = true) :
    ∃ (idx : Int) (t : Nat),
      K_PrioListIdx cfg k = some idx ∧
      0 ≤ idx ∧ idx < (cfg.CONFIG_NUM_TASK_PRIORITIES : Int) ∧
      next_task_select cfg k = some (some t) ∧
      ready k t := by
  obtain ⟨i, _, hlow⟩ := exists_lowest_set_bit _ idle hidle
  have hr : level_ready k i = true := by rw [← hinv i]; exact hlow.1
  obtain ⟨q, hq, hne⟩ := (level_ready_iff k i).1 hr
  obtain ⟨t, rest, hc⟩ : ∃ t rest, q.chain = t :: rest := by
    cases hc : q.chain with
    | nil => exact absurd hc hne
    | cons t rest => exact ⟨t, rest, rfl⟩
  have hiN : i < cfg.CONFIG_NUM_TASK_PRIORITIES := by
    rw [← hsz.2]
    by_contra hge
    rw [List.getElem?_eq_none (by omega)] at hq
    cases hq
  refine ⟨(i : Int), t, K_PrioListIdx_lowest cfg k i hsz hlow, by omega, by omega, ?_, ?_⟩
  · rw [next_task_select_of_lowest cfg k i q hsz hlow hq]
    simp [k_tqhd.head, hc]
  · refine ⟨q, List.getElem?_mem hq, ?_⟩
    rw [hc]
    exact List.mem_cons_self _ _

/-- Witness of C2: the state with levels 3 and 15 ready. -/
theorem next_task_select_total_witness :
    ∃ (idx : Int) (t : Nat),
      K_PrioListIdx cfg16 k_3_15 = some idx ∧
      0 ≤ idx ∧ idx < (cfg16.CONFIG_NUM_TASK_PRIORITIES : Int) ∧
      next_task_select cfg16 k_3_15 = some (some t) ∧
      ready k_3_15 t :=
  next_task_select_total cfg16 k_3_15 15 ⟨by decide, by decide⟩
    (bitmap_consistent_of_bounded k_3_15 32 (by decide) (by decide) (by decide))
    (by decide)

/-- C3: when `p` is the highest-priority level with a non-empty queue, the
queue being the chain of its tasks in insertion order, `next_task_select`
returns the task at the front of that chain: the task `A` queued before all the
others is returned, and a task `B` is not returned as long as a task `A` queued
before it is still in the chain. The result depends on the chain of level `p`
only. -/
theorem next_task_select_fifo (cfg : config) (k : kernel) (p : Nat) (q : k_tqhd)
    (hsz : arrays_sized cfg k)
    (hinv : bitmap_consistent k)
    (hp : highest_ready k p q)
    (hnd : q.chain.Nodup) :
    next_task_select cfg k = some q.chain.head? ∧
    (∀ A rest, q.chain = A :: rest → next_task_select cfg k = some (some A)) ∧
    (∀ A B pre mid post, q.chain = pre ++ A :: (mid ++ B :: post) →
      next_task_select cfg k ≠ some (some B)) := by
  have hsel : next_task_select cfg k = some q.chain.head? :=
    next_task_select_of_lowest cfg k p q hsz (lowest_of_highest_ready k p q hinv hp) hp.1
  refine ⟨hsel, ?_, ?_⟩
  · intro A rest hc
    rw [hsel, hc]
    rfl
  · intro A B pre mid post hc hB
    rw [hsel, hc] at hB
    rw [hc] at hnd
    cases pre with
    | nil =>
      simp at hB
      subst hB
      simp at hnd
    | cons x pre =>
      simp at hB
      subst hB
      simp [List.nodup_append] at hnd

/-- Witness of C3: tasks 103 then 104 queued at level 3, the highest ready
level; 103 is returned and 104 is not. -/
theorem next_task_select_fifo_witness :
    next_task_select cfg16 k_fifo = some (k_tqhd.mk [103, 104]).chain.head? ∧
    (∀ A rest, (k_tqhd.mk [103, 104]).chain = A :: rest →
      next_task_select cfg16 k_fifo = some (some A)) ∧
    (∀ A B pre mid post, (k_tqhd.mk [103, 104]).chain = pre ++ A :: (mid ++ B :: post) →
      next_task_select cfg16 k_fifo ≠ some (some B)) :=
  next_task_select_fifo cfg16 k_fifo 3 (k_tqhd.mk [103, 104]) ⟨by decide, by decide⟩
    (bitmap_consistent_of_bounded k_fifo 32 (by decide) (by decide) (by decide))
    ⟨by decide, by decide, by decide⟩ (by decide)

/-! ## Lemmas on the envelope bits -/

/-- The steps taken for a packet envelope whose descriptor pointer is null:
the monitoring hook, when enabled, then the null dereference. -/
theorem server_command_null (cfg : config) (E : action → kernel → kernel)
    (pArgs : Nat) (k : kernel)
    (h : pArgs &&& cfg.KERNEL_CMD_TYPE_MASK = cfg.KERNEL_CMD_PACKET_TYPE)
    (hz : pArgs = 0) :
    (server_command cfg E pArgs k).2 =
      if cfg.CONFIG_TASK_MONITOR = true ∧ k._k_monitor_mask &&& cfg.MON_KSERV ≠ 0 then
        [action._k_task_monitor_args pArgs, action.null_dereference]
      else [action.null_dereference] := by
  unfold server_command
  simp only [h, if_true, do_call, if_pos hz]
  split_ifs <;> rfl

/-- The steps taken for a packet envelope that points to a descriptor. -/
theorem server_command_packet (cfg : config) (E : action → kernel → kernel)
    (pArgs : Nat) (k : kernel)
    (h : pArgs &&& cfg.KERNEL_CMD_TYPE_MASK = cfg.KERNEL_CMD_PACKET_TYPE)
    (hnz : pArgs ≠ 0) :
    (server_command cfg E pArgs k).2 =
      if cfg.CONFIG_TASK_MONITOR = true ∧ k._k_monitor_mask &&& cfg.MON_KSERV ≠ 0 then
        [action._k_task_monitor_args pArgs,
          action.Comm ((E (action._k_task_monitor_args pArgs) k).Comm_at pArgs) pArgs] ++
        yield_steps (E (action.Comm ((E (action._k_task_monitor_args pArgs) k).Comm_at pArgs)
          pArgs) (E (action._k_task_monitor_args pArgs) k))
      else
        [action.Comm (k.Comm_at pArgs) pArgs] ++
        yield_steps (E (action.Comm (k.Comm_at pArgs) pArgs) k) := by
  unfold server_command server_yield yield_steps
  simp only [h, if_true, do_call, if_neg hnz]
  split_ifs <;> simp_all

/-- The steps taken for an event envelope. -/
theorem server_command_event (cfg : config) (E : action → kernel → kernel)
    (pArgs : Nat) (k : kernel)
    (hp : pArgs &&& cfg.KERNEL_CMD_TYPE_MASK ≠ cfg.KERNEL_CMD_PACKET_TYPE)
    (h : pArgs &&& cfg.KERNEL_CMD_TYPE_MASK = cfg.KERNEL_CMD_EVENT_TYPE) :
    (server_command cfg E pArgs k).2 =
      if cfg.CONFIG_TASK_MONITOR = true ∧ k._k_monitor_mask &&& cfg.MON_EVENT ≠ 0 then
        [action._k_task_monitor_args pArgs,
          action._k_do_event_signal (pArgs &&& not32 cfg.KERNEL_CMD_TYPE_MASK)] ++
        yield_steps (E (action._k_do_event_signal (pArgs &&& not32 cfg.KERNEL_CMD_TYPE_MASK))
          (E (action._k_task_monitor_args pArgs) k))
      else
        [action._k_do_event_signal (pArgs &&& not32 cfg.KERNEL_CMD_TYPE_MASK)] ++
        yield_steps (E (action._k_do_event_signal (pArgs &&& not32 cfg.KERNEL_CMD_TYPE_MASK)) k) := by
  unfold server_command server_yield yield_steps
  simp only [if_neg hp, h, if_true, do_call]
  split_ifs <;> simp_all

/-- The steps taken for an envelope that is neither a packet nor an event. -/
theorem server_command_other (cfg : config) (E : action → kernel → kernel)
    (pArgs : Nat) (k : kernel)
    (hp : pArgs &&& cfg.KERNEL_CMD_TYPE_MASK ≠ cfg.KERNEL_CMD_PACKET_TYPE)
    (he : pArgs &&& cfg.KERNEL_CMD_TYPE_MASK ≠ cfg.KERNEL_CMD_EVENT_TYPE) :
    (server_command cfg E pArgs k).2 =
      [action._k_sem_struct_value_update 1 (pArgs &&& not32 cfg.KERNEL_CMD_TYPE_MASK)] ++
      yield_steps (E (action._k_sem_struct_value_update 1
        (pArgs &&& not32 cfg.KERNEL_CMD_TYPE_MASK)) k) := by
  unfold server_command server_yield yield_steps
  simp only [if_neg hp, if_neg he, do_call]
  split_ifs <;> simp_all

theorem filter_handler_yield (k : kernel) :
    (yield_steps k).filter is_handler = [] := by
  unfold yield_steps
  split_ifs <;> simp [is_handler]

theorem filter_monitor_yield (k : kernel) :
    (yield_steps k).filter is_monitor_args = [] := by
  unfold yield_steps
  split_ifs <;> simp [is_monitor_args]

theorem null_dereference_not_yield (k : kernel) :
    action.null_dereference ∉ yield_steps k := by
  unfold yield_steps
  split_ifs <;> simp

/-- The loop body ends in a null dereference for a null packet envelope
only. -/
theorem server_command_completes (cfg : config) (E : action → kernel → kernel)
    (pArgs : Nat) (k : kernel) (hv : ¬ null_packet cfg pArgs) :
    action.null_dereference ∉ (server_command cfg E pArgs k).2 := by
  by_cases hp : pArgs &&& cfg.KERNEL_CMD_TYPE_MASK = cfg.KERNEL_CMD_PACKET_TYPE
  · have hnz : pArgs ≠ 0 := fun hz => hv ⟨hp, hz⟩
    rw [server_command_packet cfg E pArgs k hp hnz]
    split_ifs <;> simp [null_dereference_not_yield]
  · by_cases he : pArgs &&& cfg.KERNEL_CMD_TYPE_MASK = cfg.KERNEL_CMD_EVENT_TYPE
    · rw [server_command_event cfg E pArgs k hp he]
      split_ifs <;> simp [null_dereference_not_yield]
    · rw [server_command_other cfg E pArgs k hp he]
      simp [null_dereference_not_yield]

/-- The loop body for a null packet envelope ends in the null dereference and
calls no handler. -/
theorem server_command_faults (cfg : config) (E : action → kernel → kernel)
    (pArgs : Nat) (k : kernel) (hv : null_packet cfg pArgs) :
    action.null_dereference ∈ (server_command cfg E pArgs k).2 ∧
    (server_command cfg E pArgs k).2.getLast? = some action.null_dereference ∧
    (server_command cfg E pArgs k).2.filter is_handler = [] := by
  rw [server_command_null cfg E pArgs k hv.1 hv.2]
  split_ifs <;> simp [is_handler]

/-- C5 (as stated, refuted): under the constants of `micro_private.h` the
envelope 3 carries a tag that is none of the three kinds, and the dispatcher
handles it by a call of the semaphore update. -/
theorem unknown_tag_counterexample :
    (3 &&& cfg16.KERNEL_CMD_TYPE_MASK ≠ cfg16.KERNEL_CMD_PACKET_TYPE ∧
      3 &&& cfg16.KERNEL_CMD_TYPE_MASK ≠ cfg16.KERNEL_CMD_EVENT_TYPE ∧
      3 &&& cfg16.KERNEL_CMD_TYPE_MASK ≠ cfg16.KERNEL_CMD_SEMAPHORE_TYPE) ∧
    (server_command cfg16 sample_effect 3 k_15).2 =
      [action._k_sem_struct_value_update 1 0] := by
  decide

/-- C5 (amended): an envelope whose tag bits equal none of the three kinds is
handled as a SemaphoreGive: the steps of the loop body are one call of the
semaphore update, by 1, on the envelope with its tag bits cleared, followed by
the yield check; neither the packet handler nor the event signal is called,
and there is no fatal path. -/
theorem unknown_tag_handled_as_semaphore (cfg : config) (E : action → kernel → kernel)
    (pArgs : Nat) (k : kernel)
    (hp : pArgs &&& cfg.KERNEL_CMD_TYPE_MASK ≠ cfg.KERNEL_CMD_PACKET_TYPE)
    (he : pArgs &&& cfg.KERNEL_CMD_TYPE_MASK ≠ cfg.KERNEL_CMD_EVENT_TYPE)
    (_hs : pArgs &&& cfg.KERNEL_CMD_TYPE_MASK ≠ cfg.KERNEL_CMD_SEMAPHORE_TYPE) :
    (server_command cfg E pArgs k).2 =
      [action._k_sem_struct_value_update 1 (pArgs &&& not32 cfg.KERNEL_CMD_TYPE_MASK)] ++
      yield_steps (E (action._k_sem_struct_value_update 1
        (pArgs &&& not32 cfg.KERNEL_CMD_TYPE_MASK)) k) ∧
    (server_command cfg E pArgs k).2.filter is_handler =
      [action._k_sem_struct_value_update 1 (pArgs &&& not32 cfg.KERNEL_CMD_TYPE_MASK)] := by
  have h := server_command_other cfg E pArgs k hp he
  refine ⟨h, ?_⟩
  rw [h, List.filter_append, filter_handler_yield]
  simp [is_handler]

/-- Witness of C5 (amended): the envelope 7 (tag 3, payload bits 4). -/
theorem unknown_tag_handled_as_semaphore_witness :
    (server_command cfg16 sample_effect 7 k_15).2 =
      [action._k_sem_struct_value_update 1 (7 &&& not32 cfg16.KERNEL_CMD_TYPE_MASK)] ++
      yield_steps (sample_effect (action._k_sem_struct_value_update 1
        (7 &&& not32 cfg16.KERNEL_CMD_TYPE_MASK)) k_15) ∧
    (server_command cfg16 sample_effect 7 k_15).2.filter is_handler =
      [action._k_sem_struct_value_update 1 (7 &&& not32 cfg16.KERNEL_CMD_TYPE_MASK)] :=
  unknown_tag_handled_as_semaphore cfg16 sample_effect 7 k_15
    (by decide) (by decide) (by decide)

/-- C6: for an envelope that carries one of the three kinds, the loop body
makes exactly one handler call, fixed by the tag: for a Packet the handler
stored in the descriptor that the envelope points to, with that descriptor as
argument; for an EventSignal the event signal on the envelope with its tag bits
cleared; for a SemaphoreGive the semaphore update, by exactly 1, on the
envelope with its tag bits cleared. A packet envelope points to a descriptor
when it is not null; for the null one the loop body calls no handler and ends
in the null dereference. -/
theorem per_kind_handling (cfg : config) (E : action → kernel → kernel)
    (pArgs : Nat) (k : kernel)
    (hpe : cfg.KERNEL_CMD_EVENT_TYPE ≠ cfg.KERNEL_CMD_PACKET_TYPE)
    (hsp : cfg.KERNEL_CMD_SEMAPHORE_TYPE ≠ cfg.KERNEL_CMD_PACKET_TYPE)
    (hse : cfg.KERNEL_CMD_SEMAPHORE_TYPE ≠ cfg.KERNEL_CMD_EVENT_TYPE) :
    (pArgs &&& cfg.KERNEL_CMD_TYPE_MASK = cfg.KERNEL_CMD_PACKET_TYPE → pArgs ≠ 0 →
      action.null_dereference ∉ (server_command cfg E pArgs k).2 ∧
      ∃ k0, (k0 = k ∨ k0 = E (action._k_task_monitor_args pArgs) k) ∧
        (server_command cfg E pArgs k).2.filter is_handler =
          [action.Comm (k0.Comm_at pArgs) pArgs]) ∧
    (pArgs &&& cfg.KERNEL_CMD_TYPE_MASK = cfg.KERNEL_CMD_PACKET_TYPE → pArgs = 0 →
      (server_command cfg E pArgs k).2.getLast? = some action.null_dereference ∧
      (server_command cfg E pArgs k).2.filter is_handler = []) ∧
    (pArgs &&& cfg.KERNEL_CMD_TYPE_MASK = cfg.KERNEL_CMD_EVENT_TYPE →
      action.null_dereference ∉ (server_command cfg E pArgs k).2 ∧
      (server_command cfg E pArgs k).2.filter is_handler =
        [action._k_do_event_signal (pArgs &&& not32 cfg.KERNEL_CMD_TYPE_MASK)]) ∧
    (pArgs &&& cfg.KERNEL_CMD_TYPE_MASK = cfg.KERNEL_CMD_SEMAPHORE_TYPE →
      action.null_dereference ∉ (server_command cfg E pArgs k).2 ∧
      (server_command cfg E pArgs k).2.filter is_handler =
        [action._k_sem_struct_value_update 1 (pArgs &&& not32 cfg.KERNEL_CMD_TYPE_MASK)]) := by
  refine ⟨?_, ?_, ?_, ?_⟩
  · intro h hnz
    refine ⟨server_command_completes cfg E pArgs k (fun hv => hnz hv.2), ?_⟩
    rw [server_command_packet cfg E pArgs k h hnz]
    split_ifs
    · refine ⟨E (action._k_task_monitor_args pArgs) k, Or.inr rfl, ?_⟩
      rw [List.filter_append, filter_handler_yield]
      simp [is_handler]
    · refine ⟨k, Or.inl rfl, ?_⟩
      rw [List.filter_append, filter_handler_yield]
      simp [is_handler]
  · intro h hz
    exact (server_command_faults cfg E pArgs k ⟨h, hz⟩).2
  · intro h
    have hp : pArgs &&& cfg.KERNEL_CMD_TYPE_MASK ≠ cfg.KERNEL_CMD_PACKET_TYPE := by
      rw [h]; exact hpe
    refine ⟨server_command_completes cfg E pArgs k (fun hv => hp hv.1), ?_⟩
    rw [server_command_event cfg E pArgs k hp h]
    split_ifs <;>
    · rw [List.filter_append, filter_handler_yield]
      simp [is_handler]
  · intro h
    have hp : pArgs &&& cfg.KERNEL_CMD_TYPE_MASK ≠ cfg.KERNEL_CMD_PACKET_TYPE := by
      rw [h]; exact hsp
    refine ⟨server_command_completes cfg E pArgs k (fun hv => hp hv.1), ?_⟩
    rw [server_command_other cfg E pArgs k hp (by rw [h]; exact hse),
      List.filter_append, filter_handler_yield]
    simp [is_handler]

/-- Witness of C6: in a state with every monitoring class enabled, the packet
envelope 8192 (handler 8199 stored in the descriptor), the null packet
envelope 0, the EventSignal envelope 8193 and the SemaphoreGive envelope
8194. -/
theorem per_kind_handling_witness :
    ((server_command cfg16 sample_effect 8192 k_monitored).2 =
        [action._k_task_monitor_args 8192, action.Comm 8199 8192] ∧
      (server_command cfg16 sample_effect 0 k_monitored).2 =
        [action._k_task_monitor_args 0, action.null_dereference] ∧
      (server_command cfg16 sample_effect 8193 k_monitored).2 =
        [action._k_task_monitor_args 8193, action._k_do_event_signal 8192] ∧
      (server_command cfg16 sample_effect 8194 k_monitored).2 =
        [action._k_sem_struct_value_update 1 8192]) ∧
    (action.null_dereference ∉ (server_command cfg16 sample_effect 8192 k_monitored).2 ∧
      ∃ k0, (k0 = k_monitored ∨
          k0 = sample_effect (action._k_task_monitor_args 8192) k_monitored) ∧
        (server_command cfg16 sample_effect 8192 k_monitored).2.filter is_handler =
          [action.Comm (k0.Comm_at 8192) 8192]) ∧
    ((server_command cfg16 sample_effect 0 k_monitored).2.getLast? =
        some action.null_dereference ∧
      (server_command cfg16 sample_effect 0 k_monitored).2.filter is_handler = []) ∧
    (action.null_dereference ∉ (server_command cfg16 sample_effect 8193 k_monitored).2 ∧
      (server_command cfg16 sample_effect 8193 k_monitored).2.filter is_handler =
        [action._k_do_event_signal (8193 &&& not32 cfg16.KERNEL_CMD_TYPE_MASK)]) ∧
    (action.null_dereference ∉ (server_command cfg16 sample_effect 8194 k_monitored).2 ∧
      (server_command cfg16 sample_effect 8194 k_monitored).2.filter is_handler =
        [action._k_sem_struct_value_update 1 (8194 &&& not32 cfg16.KERNEL_CMD_TYPE_MASK)]) :=
  ⟨by decide,
   (per_kind_handling cfg16 sample_effect 8192 k_monitored
      (by decide) (by decide) (by decide)).1 (by decide) (by decide),
   (per_kind_handling cfg16 sample_effect 0 k_monitored
      (by decide) (by decide) (by decide)).2.1 (by decide) rfl,
   (per_kind_handling cfg16 sample_effect 8193 k_monitored
      (by decide) (by decide) (by decide)).2.2.1 (by decide),
   (per_kind_handling cfg16 sample_effect 8194 k_monitored
      (by decide) (by decide) (by decide)).2.2.2 (by decide)⟩

/-- C9 (as stated, refuted): with task monitoring configured and every
monitoring class enabled, the loop body for the SemaphoreGive envelope 8194
makes no call of the monitoring hook. -/
theorem envelope_monitoring_counterexample :
    cfg16.CONFIG_TASK_MONITOR = true ∧
    k_monitored._k_monitor_mask = 2 ^ 32 - 1 ∧
    8194 &&& cfg16.KERNEL_CMD_TYPE_MASK = cfg16.KERNEL_CMD_SEMAPHORE_TYPE ∧
    (server_command cfg16 sample_effect 8194 k_monitored).2 =
      [action._k_sem_struct_value_update 1 8192] ∧
    (server_command cfg16 sample_effect 8194 k_monitored).2.filter is_monitor_args = [] := by
  decide

/-- C9 (amended): when task monitoring is configured and the classes of
`MON_KSERV` and `MON_EVENT` are enabled, the monitoring hook is called exactly
once, with the envelope, before the handler, for every Packet and every
EventSignal envelope (for the null packet envelope the hook call is followed by
the null dereference in place of the handler); for a SemaphoreGive envelope
(any envelope that is neither of the two) it is never called. -/
theorem envelope_monitoring (cfg : config) (E : action → kernel → kernel)
    (pArgs : Nat) (k : kernel)
    (hmon : cfg.CONFIG_TASK_MONITOR = true)
    (hks : k._k_monitor_mask &&& cfg.MON_KSERV ≠ 0)
    (hev : k._k_monitor_mask &&& cfg.MON_EVENT ≠ 0) :
    (pArgs &&& cfg.KERNEL_CMD_TYPE_MASK = cfg.KERNEL_CMD_PACKET_TYPE →
      (∃ rest, (server_command cfg E pArgs k).2 =
          action._k_task_monitor_args pArgs :: rest ∧
        rest.filter is_monitor_args = []) ∧
      (pArgs ≠ 0 →
        ∃ h rest, (server_command cfg E pArgs k).2 =
            action._k_task_monitor_args pArgs :: h :: rest ∧
          is_handler h = true ∧ handled_by h = some (cmd_kind.Packet, pArgs) ∧
          rest.filter is_monitor_args = [] ∧ rest.filter is_handler = []) ∧
      (pArgs = 0 →
        (server_command cfg E pArgs k).2 =
          [action._k_task_monitor_args pArgs, action.null_dereference])) ∧
    (pArgs &&& cfg.KERNEL_CMD_TYPE_MASK ≠ cfg.KERNEL_CMD_PACKET_TYPE →
      pArgs &&& cfg.KERNEL_CMD_TYPE_MASK = cfg.KERNEL_CMD_EVENT_TYPE →
      ∃ h rest, (server_command cfg E pArgs k).2 =
          action._k_task_monitor_args pArgs :: h :: rest ∧
        is_handler h = true ∧
        handled_by h =
          some (cmd_kind.EventSignal, pArgs &&& not32 cfg.KERNEL_CMD_TYPE_MASK) ∧
        rest.filter is_monitor_args = [] ∧ rest.filter is_handler = []) ∧
    (pArgs &&& cfg.KERNEL_CMD_TYPE_MASK ≠ cfg.KERNEL_CMD_PACKET_TYPE →
      pArgs &&& cfg.KERNEL_CMD_TYPE_MASK ≠ cfg.KERNEL_CMD_EVENT_TYPE →
      (server_command cfg E pArgs k).2.filter is_monitor_args = []) := by
  refine ⟨?_, ?_, ?_⟩
  · intro h
    have hnull : pArgs = 0 → (server_command cfg E pArgs k).2 =
        [action._k_task_monitor_args pArgs, action.null_dereference] := by
      intro hz
      rw [server_command_null cfg E pArgs k h hz, if_pos ⟨hmon, hks⟩]
    have hptr : pArgs ≠ 0 →
        ∃ h rest, (server_command cfg E pArgs k).2 =
            action._k_task_monitor_args pArgs :: h :: rest ∧
          is_handler h = true ∧ handled_by h = some (cmd_kind.Packet, pArgs) ∧
          rest.filter is_monitor_args = [] ∧ rest.filter is_handler = [] := by
      intro hnz
      rw [server_command_packet cfg E pArgs k h hnz, if_pos ⟨hmon, hks⟩]
      exact ⟨_, _, rfl, rfl, rfl, filter_monitor_yield _, filter_handler_yield _⟩
    refine ⟨?_, hptr, hnull⟩
    by_cases hz : pArgs = 0
    · exact ⟨[action.null_dereference], hnull hz, by simp [is_monitor_args]⟩
    · obtain ⟨x, rest, hx, hh, _, hm, _⟩ := hptr hz
      refine ⟨x :: rest, hx, ?_⟩
      have hxm : is_monitor_args x = false := by
        cases x <;> first | rfl | cases hh
      simp [List.filter_cons, hxm, hm]
  · intro hp h
    rw [server_command_event cfg E pArgs k hp h, if_pos ⟨hmon, hev⟩]
    exact ⟨_, _, rfl, rfl, rfl, filter_monitor_yield _, filter_handler_yield _⟩
  · intro hp he
    rw [server_command_other cfg E pArgs k hp he, List.filter_append, filter_monitor_yield]
    simp [is_monitor_args]

/-- Witness of C9 (amended): the EventSignal envelope 8193 with every
monitoring class enabled. -/
theorem envelope_monitoring_witness :
    (server_command cfg16 sample_effect 8193 k_monitored).2 =
      [action._k_task_monitor_args 8193, action._k_do_event_signal 8192] ∧
    ((8193 &&& cfg16.KERNEL_CMD_TYPE_MASK = cfg16.KERNEL_CMD_PACKET_TYPE →
      (∃ rest, (server_command cfg16 sample_effect 8193 k_monitored).2 =
          action._k_task_monitor_args 8193 :: rest ∧
        rest.filter is_monitor_args = []) ∧
      (8193 ≠ 0 →
        ∃ h rest, (server_command cfg16 sample_effect 8193 k_monitored).2 =
            action._k_task_monitor_args 8193 :: h :: rest ∧
          is_handler h = true ∧ handled_by h = some (cmd_kind.Packet, 8193) ∧
          rest.filter is_monitor_args = [] ∧ rest.filter is_handler = []) ∧
      (8193 = 0 →
        (server_command cfg16 sample_effect 8193 k_monitored).2 =
          [action._k_task_monitor_args 8193, action.null_dereference])) ∧
    (8193 &&& cfg16.KERNEL_CMD_TYPE_MASK ≠ cfg16.KERNEL_CMD_PACKET_TYPE →
      8193 &&& cfg16.KERNEL_CMD_TYPE_MASK = cfg16.KERNEL_CMD_EVENT_TYPE →
      ∃ h rest, (server_command cfg16 sample_effect 8193 k_monitored).2 =
          action._k_task_monitor_args 8193 :: h :: rest ∧
        is_handler h = true ∧
        handled_by h =
          some (cmd_kind.EventSignal, 8193 &&& not32 cfg16.KERNEL_CMD_TYPE_MASK) ∧
        rest.filter is_monitor_args = [] ∧ rest.filter is_handler = []) ∧
    (8193 &&& cfg16.KERNEL_CMD_TYPE_MASK ≠ cfg16.KERNEL_CMD_PACKET_TYPE →
      8193 &&& cfg16.KERNEL_CMD_TYPE_MASK ≠ cfg16.KERNEL_CMD_EVENT_TYPE →
      (server_command cfg16 sample_effect 8193 k_monitored).2.filter is_monitor_args = [])) :=
  ⟨by decide,
   envelope_monitoring cfg16 sample_effect 8193 k_monitored rfl (by decide) (by decide)⟩

/-! ## Lemmas on the drain loop and on the selection step -/

/-- The handler call of the loop body is the one that the envelope decodes
to. -/
theorem server_command_handled (cfg : config) (E : action → kernel → kernel)
    (pArgs : Nat) (k : kernel) (hv : ¬ null_packet cfg pArgs) :
    (server_command cfg E pArgs k).2.filterMap handled_by =
      [dispatcher_decode cfg pArgs] := by
  have hy : ∀ k', (yield_steps k').filterMap handled_by = [] := by
    intro k'
    unfold yield_steps
    split_ifs <;> simp [handled_by]
  by_cases hp : pArgs &&& cfg.KERNEL_CMD_TYPE_MASK = cfg.KERNEL_CMD_PACKET_TYPE
  · rw [server_command_packet cfg E pArgs k hp (fun hz => hv ⟨hp, hz⟩)]
    split_ifs <;>
    · rw [List.filterMap_append, hy]
      simp [handled_by, dispatcher_decode, hp]
  · by_cases he : pArgs &&& cfg.KERNEL_CMD_TYPE_MASK = cfg.KERNEL_CMD_EVENT_TYPE
    · have hpe : cfg.KERNEL_CMD_EVENT_TYPE ≠ cfg.KERNEL_CMD_PACKET_TYPE := by
        rw [← he]; exact hp
      rw [server_command_event cfg E pArgs k hp he]
      split_ifs <;>
      · rw [List.filterMap_append, hy]
        simp [handled_by, dispatcher_decode, he, hpe]
    · rw [server_command_other cfg E pArgs k hp he, List.filterMap_append, hy]
      simp [handled_by, dispatcher_decode, hp, he]

/-- The loop body never reaches the task selection. -/
theorem server_command_no_select (cfg : config) (E : action → kernel → kernel)
    (pArgs : Nat) (k : kernel) :
    action.next_task_select ∉ (server_command cfg E pArgs k).2 := by
  have hy : ∀ k', action.next_task_select ∉ yield_steps k' := by
    intro k'
    unfold yield_steps
    split_ifs <;> simp
  by_cases hp : pArgs &&& cfg.KERNEL_CMD_TYPE_MASK = cfg.KERNEL_CMD_PACKET_TYPE
  · by_cases hz : pArgs = 0
    · rw [server_command_null cfg E pArgs k hp hz]
      split_ifs <;> simp
    · rw [server_command_packet cfg E pArgs k hp hz]
      split_ifs <;> simp [hy]
  · by_cases he : pArgs &&& cfg.KERNEL_CMD_TYPE_MASK = cfg.KERNEL_CMD_EVENT_TYPE
    · rw [server_command_event cfg E pArgs k hp he]
      split_ifs <;> simp [hy]
    · rw [server_command_other cfg E pArgs k hp he]
      simp [hy]

/-- When the outside routines submit nothing, the loop body leaves the command
stack as it is. -/
theorem server_command_stack (cfg : config) (E : action → kernel → kernel)
    (hE : no_submission E) (pArgs : Nat) (k : kernel) :
    (server_command cfg E pArgs k).1._k_command_stack = k._k_command_stack := by
  unfold server_command server_yield
  simp only [do_call]
  split_ifs <;> simp [hE _ _]

/-- The drain loop on a backlog of the popped envelope `pArgs` and the pending
ones `rest`, none of them a null packet: it ends with an empty stack after one
handler call per envelope, in the order of the stack. -/
theorem server_drain_backlog (cfg : config) (E : action → kernel → kernel)
    (hE : no_submission E) :
    ∀ (rest : List Nat) (fuel pArgs : Nat) (k : kernel),
      k._k_command_stack = rest → rest.length + 1 ≤ fuel →
      (∀ e, e ∈ pArgs :: rest → ¬ null_packet cfg e) →
      ∃ d, server_drain cfg E fuel pArgs k = some d ∧
        d.1._k_command_stack = [] ∧
        d.2.filterMap handled_by = (pArgs :: rest).map (dispatcher_decode cfg) ∧
        action.next_task_select ∉ d.2 ∧
        action.null_dereference ∉ d.2 := by
  intro rest
  induction rest with
  | nil =>
    intro fuel pArgs k hk hf hv
    obtain ⟨f, rfl⟩ : ∃ f, fuel = f + 1 := ⟨fuel - 1, by simp at hf; omega⟩
    have hs := server_command_stack cfg E hE pArgs k
    rw [hk] at hs
    have hc := server_command_completes cfg E pArgs k (hv pArgs (List.mem_cons_self _ _))
    refine ⟨server_command cfg E pArgs k, ?_, hs, ?_,
      server_command_no_select cfg E pArgs k, hc⟩
    · simp [server_drain, nano_fiber_stack_pop, hs, hc]
    · simp [server_command_handled cfg E pArgs k (hv pArgs (List.mem_cons_self _ _))]
  | cons e rest ih =>
    intro fuel pArgs k hk hf hv
    obtain ⟨f, rfl⟩ : ∃ f, fuel = f + 1 := ⟨fuel - 1, by simp at hf; omega⟩
    have hs := server_command_stack cfg E hE pArgs k
    rw [hk] at hs
    have hc := server_command_completes cfg E pArgs k (hv pArgs (List.mem_cons_self _ _))
    obtain ⟨d, hd, hd1, hd2, hd3, hd4⟩ :=
      ih f e { (server_command cfg E pArgs k).1 with _k_command_stack := rest } rfl
        (by simp at hf; omega) (fun x hx => hv x (List.mem_cons_of_mem _ hx))
    refine ⟨(d.1, (server_command cfg E pArgs k).2 ++ d.2), ?_, hd1, ?_, ?_, ?_⟩
    · simp [server_drain, nano_fiber_stack_pop, hs, hd, hc]
    · simp [List.filterMap_append,
        server_command_handled cfg E pArgs k (hv pArgs (List.mem_cons_self _ _)), hd2]
    · simp [server_command_no_select, hd3]
    · simp [hc, hd4]

/-- The drain loop has no result when the envelope it starts with is a null
packet. -/
theorem server_drain_null (cfg : config) (E : action → kernel → kernel)
    (fuel pArgs : Nat) (k : kernel) (hv : null_packet cfg pArgs) :
    server_drain cfg E fuel pArgs k = none := by
  cases fuel with
  | zero => rfl
  | succ f => simp [server_drain, (server_command_faults cfg E pArgs k hv).1]

/-- A pass is the drain loop followed by the selection step on the drained
state. -/
theorem server_pass_eq (cfg : config) (E : action → kernel → kernel) (fuel : Nat)
    (k k0 : kernel) (pArgs : Nat) (d : run)
    (hpop : nano_fiber_stack_pop k = some (pArgs, k0))
    (hd : server_drain cfg E fuel pArgs k0 = some d) :
    server_pass cfg E fuel k =
      (server_select cfg E d.1).map (fun s => (s.1, d.2 ++ s.2)) := by
  unfold server_pass
  rw [hpop]
  simp only [hd]
  cases server_select cfg E d.1 <;> rfl

/-- The selection step when the selected task is the current one. -/
theorem server_select_same (cfg : config) (E : action → kernel → kernel)
    (k : kernel) (p : Option Nat)
    (hn : next_task_select cfg k = some p) (hc : k._k_current_task = p) :
    server_select cfg E k = some (k, [action.next_task_select]) := by
  unfold server_select
  simp [hn, hc]

/-- The selection step when a task other than the current one is selected. -/
theorem server_select_switch (cfg : config) (E : action → kernel → kernel)
    (k : kernel) (t : Nat)
    (hn : next_task_select cfg k = some (some t)) (hc : k._k_current_task ≠ some t)
    (hr : current_readable cfg k t) :
    ∃ s, server_select cfg E k = some s ∧
      s.2 = action.next_task_select ::
        (idle_hook_steps cfg k t ++ action.store_k_current_task t ::
          switch_monitor_steps cfg (switched (idle_hook_state cfg E k t) t) t) ∧
      s.1 = switch_monitor_state cfg E (switched (idle_hook_state cfg E k t) t) t := by
  unfold server_select
  simp only [hn, hc, ne_eq, not_false_eq_true, if_true]
  unfold current_readable at hr
  unfold idle_hook_steps idle_hook_state idle_hook switch_monitor_steps
    switch_monitor_state switched
  simp only [do_call]
  by_cases hw : cfg.CONFIG_WORKLOAD_MONITOR = true
  · by_cases hid : (k.task_at t).id = 0
    · simp only [hw, hid, if_true]
      split_ifs <;> simp
    · cases hcur : k._k_current_task with
      | none => exact absurd hcur (hr hw hid)
      | some cur =>
        simp only [hw, hid, if_true, if_false]
        by_cases hci : (k.task_at cur).id = 0
        · simp only [hci, if_true]
          split_ifs <;> simp
        · simp only [hci, if_false]
          split_ifs <;> simp
  · simp only [hw, if_false, Bool.false_eq_true]
    split_ifs <;> simp

/-- The two ways in which the selection step ends. -/
theorem server_select_inv (cfg : config) (E : action → kernel → kernel)
    (k : kernel) (s : run) (h : server_select cfg E k = some s) :
    (∃ p, next_task_select cfg k = some p ∧ k._k_current_task = p ∧
      s = (k, [action.next_task_select])) ∨
    (∃ t, next_task_select cfg k = some (some t) ∧ k._k_current_task ≠ some t ∧
      current_readable cfg k t ∧
      s.2 = action.next_task_select ::
        (idle_hook_steps cfg k t ++ action.store_k_current_task t ::
          switch_monitor_steps cfg (switched (idle_hook_state cfg E k t) t) t) ∧
      s.1 = switch_monitor_state cfg E (switched (idle_hook_state cfg E k t) t) t) := by
  cases hn : next_task_select cfg k with
  | none => simp [server_select, hn] at h
  | some p =>
    by_cases hc : k._k_current_task = p
    · left
      rw [server_select_same cfg E k p hn hc] at h
      exact ⟨p, rfl, hc, (Option.some.inj h).symm⟩
    · right
      cases p with
      | none => simp [server_select, hn, hc] at h
      | some t =>
        have hr : current_readable cfg k t := by
          intro hw hid hcur
          simp [server_select, hn, hw, hid, hcur] at h
        obtain ⟨s', hs', h2, h1⟩ := server_select_switch cfg E k t hn hc hr
        rw [hs'] at h
        cases h
        exact ⟨t, rfl, hc, hr, h2, h1⟩

/-- The selection step starts with the call of `next_task_select` and calls no
handler. -/
theorem server_select_steps (cfg : config) (E : action → kernel → kernel)
    (k : kernel) (s : run) (h : server_select cfg E k = some s) :
    s.2.head? = some action.next_task_select ∧ s.2.filterMap handled_by = [] := by
  rcases server_select_inv cfg E k s h with ⟨p, _, _, rfl⟩ | ⟨t, _, _, _, h2, _⟩
  · simp [handled_by]
  · rw [h2]
    unfold idle_hook_steps idle_hook switch_monitor_steps
    refine ⟨rfl, ?_⟩
    cases k._k_current_task <;> (split_ifs <;> simp [handled_by])

/-- When the outside routines submit nothing, the selection step leaves the
command stack as it is. -/
theorem server_select_stack (cfg : config) (E : action → kernel → kernel)
    (hE : no_submission E) (k : kernel) (s : run)
    (h : server_select cfg E k = some s) :
    s.1._k_command_stack = k._k_command_stack := by
  rcases server_select_inv cfg E k s h with ⟨p, _, _, rfl⟩ | ⟨t, _, _, _, _, h1⟩
  · rfl
  · rw [h1]
    unfold switch_monitor_state switched idle_hook_state
    cases idle_hook cfg k t <;> (split_ifs <;> simp [hE _ _])

/-! ## Theorems on the dispatcher loop -/

/-- C7: when the dispatcher wakes with a backlog of `n ≥ 1` envelopes on the
command stack (each packet envelope pointing to a descriptor) and the outside
routines submit no further envelope, one pass of the outer loop handles every
pending envelope exactly once, in the pop order of the stack (the most
recently pushed first), leaves the stack empty, and calls `next_task_select`
only after the last envelope has been handled. -/
theorem drain_before_select (cfg : config) (E : action → kernel → kernel)
    (fuel : Nat) (k : kernel) (top : Nat) (rest : List Nat)
    (hE : no_submission E)
    (hstack : k._k_command_stack = top :: rest)
    (hvalid : ∀ e, e ∈ top :: rest → ¬ null_packet cfg e)
    (hfuel : rest.length + 1 ≤ fuel) :
    ∃ d, server_drain cfg E fuel top { k with _k_command_stack := rest } = some d ∧
      d.1._k_command_stack = [] ∧
      d.2.filterMap handled_by = (top :: rest).map (dispatcher_decode cfg) ∧
      action.next_task_select ∉ d.2 ∧
      action.null_dereference ∉ d.2 ∧
      server_pass cfg E fuel k =
        (server_select cfg E d.1).map (fun s => (s.1, d.2 ++ s.2)) ∧
      ∀ s, server_select cfg E d.1 = some s →
        s.2.head? = some action.next_task_select ∧
        s.2.filterMap handled_by = [] ∧
        s.1._k_command_stack = [] := by
  obtain ⟨d, hd, hd1, hd2, hd3, hd4⟩ :=
    server_drain_backlog cfg E hE rest fuel top { k with _k_command_stack := rest } rfl hfuel
      hvalid
  have hpop : nano_fiber_stack_pop k = some (top, { k with _k_command_stack := rest }) := by
    unfold nano_fiber_stack_pop
    rw [hstack]
  refine ⟨d, hd, hd1, hd2, hd3, hd4, server_pass_eq cfg E fuel k _ top d hpop hd, ?_⟩
  intro s hs
  obtain ⟨h1, h2⟩ := server_select_steps cfg E d.1 s hs
  exact ⟨h1, h2, by rw [server_select_stack cfg E hE d.1 s hs, hd1]⟩

theorem sample_effect_no_submission : no_submission sample_effect := by
  intro c k
  cases c <;> rfl

/-- Witness of C7: two Packet envelopes pushed back-to-back; the pass calls
the handler of the second-pushed descriptor (8200), then the one of the
first-pushed (8192), then `next_task_select`. A backlog that holds the null
packet envelope is outside of the theorem: the pass has no result. -/
theorem drain_before_select_witness :
    ((server_pass cfg16 sample_effect 2 k_two_packets).map (fun r => r.2) =
        some [action.Comm 8207 8200, action.Comm 8199 8192, action.next_task_select] ∧
      (server_pass cfg16 sample_effect 3 k_null_packet).map (fun r => r.2) = none) ∧
    ∃ d, server_drain cfg16 sample_effect 2 8200
        { k_two_packets with _k_command_stack := [8192] } = some d ∧
      d.1._k_command_stack = [] ∧
      d.2.filterMap handled_by = ([8200, 8192]).map (dispatcher_decode cfg16) ∧
      action.next_task_select ∉ d.2 ∧
      action.null_dereference ∉ d.2 ∧
      server_pass cfg16 sample_effect 2 k_two_packets =
        (server_select cfg16 sample_effect d.1).map (fun s => (s.1, d.2 ++ s.2)) ∧
      ∀ s, server_select cfg16 sample_effect d.1 = some s →
        s.2.head? = some action.next_task_select ∧
        s.2.filterMap handled_by = [] ∧
        s.1._k_command_stack = [] :=
  ⟨⟨by decide, by decide⟩,
   drain_before_select cfg16 sample_effect 2 k_two_packets 8200 [8192]
     sample_effect_no_submission rfl (by unfold null_packet; decide) (by decide)⟩

/-! ## Lemmas on the switch -/

theorem idle_hook_is_hook (cfg : config) (k : kernel) (t : Nat) (c : action)
    (h : idle_hook cfg k t = some c) : is_hook c = true := by
  unfold idle_hook at h
  cases hcur : k._k_current_task <;> simp only [hcur] at h <;>
    (split_ifs at h <;> (cases h; rfl))

/-- With observer hooks a switch changes the two stored fields only. -/
theorem switch_state_observed (cfg : config) (E : action → kernel → kernel)
    (hobs : hooks_observe E) (k : kernel) (t : Nat) :
    switch_monitor_state cfg E (switched (idle_hook_state cfg E k t) t) t = switched k t := by
  have h1 : idle_hook_state cfg E k t = k := by
    unfold idle_hook_state
    cases h : idle_hook cfg k t with
    | none => rfl
    | some c => exact hobs c k (idle_hook_is_hook cfg k t c h)
  rw [h1]
  unfold switch_monitor_state
  split_ifs
  · exact hobs _ _ rfl
  · rfl

/-- The loop body takes no step of the selection and switch part. -/
theorem server_command_no_switch_step (cfg : config) (E : action → kernel → kernel)
    (pArgs : Nat) (k : kernel) :
    ∀ a, a ∈ (server_command cfg E pArgs k).2 → is_switch_step a = false := by
  have hy : ∀ k' a, a ∈ yield_steps k' → is_switch_step a = false := by
    intro k' a
    unfold yield_steps
    split_ifs <;> simp
    rintro rfl; rfl
  intro a
  by_cases hp : pArgs &&& cfg.KERNEL_CMD_TYPE_MASK = cfg.KERNEL_CMD_PACKET_TYPE
  · by_cases hz : pArgs = 0
    · rw [server_command_null cfg E pArgs k hp hz]
      split_ifs <;>
      · simp only [List.mem_cons, List.mem_singleton, List.not_mem_nil, or_false]
        rintro (rfl | rfl) <;> rfl
    · rw [server_command_packet cfg E pArgs k hp hz]
      split_ifs <;>
      · simp only [List.mem_append, List.mem_cons, List.mem_singleton, List.not_mem_nil,
          or_false]
        rintro ((rfl | rfl) | h) <;> first | rfl | exact hy _ _ h
  · by_cases he : pArgs &&& cfg.KERNEL_CMD_TYPE_MASK = cfg.KERNEL_CMD_EVENT_TYPE
    · rw [server_command_event cfg E pArgs k hp he]
      split_ifs <;>
      · simp only [List.mem_append, List.mem_cons, List.mem_singleton, List.not_mem_nil,
          or_false]
        rintro ((rfl | rfl) | h) <;> first | rfl | exact hy _ _ h
    · rw [server_command_other cfg E pArgs k hp he]
      simp only [List.mem_append, List.mem_cons, List.mem_singleton, List.not_mem_nil, or_false]
      rintro (rfl | h) <;> first | rfl | exact hy _ _ h

/-- The drain loop takes no step of the selection and switch part. -/
theorem server_drain_no_switch_step (cfg : config) (E : action → kernel → kernel) :
    ∀ (fuel pArgs : Nat) (k : kernel) (d : run),
      server_drain cfg E fuel pArgs k = some d →
      ∀ a, a ∈ d.2 → is_switch_step a = false := by
  intro fuel
  induction fuel with
  | zero => intro pArgs k d h; simp [server_drain] at h
  | succ f ih =>
    intro pArgs k d h a ha
    unfold server_drain at h
    simp only at h
    split_ifs at h
    split at h
    · cases h
      exact server_command_no_switch_step cfg E pArgs k a ha
    · rename_i pArgs' k' _
      cases hd : server_drain cfg E f pArgs' k' with
      | none => simp [hd] at h
      | some d' =>
        simp [hd] at h
        subst h
        simp only [List.mem_append] at ha
        rcases ha with ha | ha
        · exact server_command_no_switch_step cfg E pArgs k a ha
        · exact ih pArgs' k' d' hd a ha

/-- C8: on a pass of the dispatcher loop, let `d` be the state after the
drain and `t` the result of `next_task_select` on it, the monitoring hooks
being observers. The pass ends with `_k_current_task` equal to `t`; the
reference is changed if and only if `t` differs from the current task; when a
switch occurs the only changes are `_k_current_task` and `_nanokernel.task`,
set to the workspace of `t`; when `t` is the current task the state is left
unchanged. -/
theorem selecting_step (cfg : config) (E : action → kernel → kernel) (fuel : Nat)
    (k k0 : kernel) (pArgs : Nat) (d : run) (t : Nat)
    (hobs : hooks_observe E)
    (hpop : nano_fiber_stack_pop k = some (pArgs, k0))
    (hd : server_drain cfg E fuel pArgs k0 = some d)
    (hn : next_task_select cfg d.1 = some (some t))
    (hr : current_readable cfg d.1 t) :
    ∃ r, server_pass cfg E fuel k = some r ∧
      r.1._k_current_task = some t ∧
      (r.1._k_current_task ≠ d.1._k_current_task ↔ some t ≠ d.1._k_current_task) ∧
      (d.1._k_current_task ≠ some t →
        r.1 = switched d.1 t ∧ r.1._nanokernel_task = (d.1.task_at t).workspace) ∧
      (d.1._k_current_task = some t → r.1 = d.1) := by
  rw [server_pass_eq cfg E fuel k k0 pArgs d hpop hd]
  by_cases hc : d.1._k_current_task = some t
  · rw [server_select_same cfg E d.1 (some t) hn hc]
    refine ⟨_, rfl, hc, ?_, fun h => absurd hc h, fun _ => rfl⟩
    simp [hc]
  · obtain ⟨s, hs, _, h1⟩ := server_select_switch cfg E d.1 t hn hc hr
    rw [switch_state_observed cfg E hobs] at h1
    rw [hs]
    refine ⟨_, rfl, ?_, ?_, fun _ => ⟨h1, ?_⟩, fun h => absurd h hc⟩
    · show s.1._k_current_task = some t
      rw [h1]; rfl
    · show s.1._k_current_task ≠ d.1._k_current_task ↔ some t ≠ d.1._k_current_task
      rw [h1]; rfl
    · show s.1._nanokernel_task = (d.1.task_at t).workspace
      rw [h1]; rfl

theorem sample_effect_observes : hooks_observe sample_effect := by
  intro c k h
  cases c <;> first | rfl | cases h

/-- Witness of C8: the idle task is current and a SemaphoreGive makes task 103
ready; the pass ends with task 103 current and its workspace in
`_nanokernel.task`. -/
theorem selecting_step_witness :
    ∃ r, server_pass cfg16 sample_effect 1 k_wake = some r ∧
      r.1._k_current_task = some 103 ∧
      (r.1._k_current_task ≠
          (server_command cfg16 sample_effect 8194
            { k_wake with _k_command_stack := [] }).1._k_current_task ↔
        some 103 ≠ (server_command cfg16 sample_effect 8194
            { k_wake with _k_command_stack := [] }).1._k_current_task) ∧
      ((server_command cfg16 sample_effect 8194
            { k_wake with _k_command_stack := [] }).1._k_current_task ≠ some 103 →
        r.1 = switched (server_command cfg16 sample_effect 8194
            { k_wake with _k_command_stack := [] }).1 103 ∧
        r.1._nanokernel_task = ((server_command cfg16 sample_effect 8194
            { k_wake with _k_command_stack := [] }).1.task_at 103).workspace) ∧
      ((server_command cfg16 sample_effect 8194
            { k_wake with _k_command_stack := [] }).1._k_current_task = some 103 →
        r.1 = (server_command cfg16 sample_effect 8194
            { k_wake with _k_command_stack := [] }).1) :=
  selecting_step cfg16 sample_effect 1 k_wake { k_wake with _k_command_stack := [] } 8194
    (server_command cfg16 sample_effect 8194 { k_wake with _k_command_stack := [] }) 103
    sample_effect_observes rfl rfl (by decide) (by intro _ _; decide)

/-- C10: with workload monitoring configured, on a pass in which a switch
occurs (from the current task `c` to the selected task `t`) the idle-entry hook
is called iff `t` is the idle task (identifier 0), the idle-exit hook is called
iff `c` is the idle task and `t` is not, the two are never both called, and
every such call comes before the store into `_k_current_task`; on a pass in
which the selected task is the current one neither hook is called. -/
theorem idle_transition_hooks (cfg : config) (E : action → kernel → kernel) (fuel : Nat)
    (k k0 : kernel) (pArgs : Nat) (d : run) (t c : Nat)
    (hw : cfg.CONFIG_WORKLOAD_MONITOR = true)
    (hpop : nano_fiber_stack_pop k = some (pArgs, k0))
    (hd : server_drain cfg E fuel pArgs k0 = some d)
    (hn : next_task_select cfg d.1 = some (some t))
    (hcur : d.1._k_current_task = some c) :
    ∃ r, server_pass cfg E fuel k = some r ∧
      (c ≠ t →
        (action._k_workload_monitor_idle_start ∈ r.2 ↔ (d.1.task_at t).id = 0) ∧
        (action._k_workload_monitor_idle_end ∈ r.2 ↔
          (d.1.task_at c).id = 0 ∧ (d.1.task_at t).id ≠ 0) ∧
        ¬ (action._k_workload_monitor_idle_start ∈ r.2 ∧
            action._k_workload_monitor_idle_end ∈ r.2) ∧
        ∃ pre post, r.2 = pre ++ action.store_k_current_task t :: post ∧
          action._k_workload_monitor_idle_start ∉ post ∧
          action._k_workload_monitor_idle_end ∉ post ∧
          (∀ x, action.store_k_current_task x ∉ pre)) ∧
      (c = t →
        action._k_workload_monitor_idle_start ∉ r.2 ∧
        action._k_workload_monitor_idle_end ∉ r.2 ∧
        ∀ x, action.store_k_current_task x ∉ r.2) := by
  rw [server_pass_eq cfg E fuel k k0 pArgs d hpop hd]
  have hdr := server_drain_no_switch_step cfg E fuel pArgs k0 d hd
  have hs1 : action._k_workload_monitor_idle_start ∉ d.2 := fun h => by
    have := hdr _ h; cases this
  have hs2 : action._k_workload_monitor_idle_end ∉ d.2 := fun h => by
    have := hdr _ h; cases this
  have hs3 : ∀ x, action.store_k_current_task x ∉ d.2 := fun x h => by
    have := hdr _ h; cases this
  by_cases hct : c = t
  · subst hct
    rw [server_select_same cfg E d.1 (some c) hn hcur]
    refine ⟨_, rfl, fun h => absurd rfl h, fun _ => ?_⟩
    simp [hs1, hs2, hs3]
  · have hc : d.1._k_current_task ≠ some t := by
      rw [hcur]; intro h; exact hct (Option.some.inj h)
    have hr : current_readable cfg d.1 t := by
      intro _ _; rw [hcur]; simp
    obtain ⟨s, hs, h2, _⟩ := server_select_switch cfg E d.1 t hn hc hr
    rw [hs]
    refine ⟨_, rfl, fun _ => ?_, fun h => absurd h hct⟩
    have hpost : ∀ k', action._k_workload_monitor_idle_start ∉ switch_monitor_steps cfg k' t ∧
        action._k_workload_monitor_idle_end ∉ switch_monitor_steps cfg k' t := by
      intro k'
      unfold switch_monitor_steps
      split_ifs <;> simp
    have hhooks : idle_hook_steps cfg d.1 t =
        if (d.1.task_at t).id = 0 then [action._k_workload_monitor_idle_start]
        else if (d.1.task_at c).id = 0 then [action._k_workload_monitor_idle_end]
        else [] := by
      unfold idle_hook_steps idle_hook
      rw [hcur]
      simp only [hw, if_true]
      split_ifs <;> rfl
    simp only [Option.map_some', h2]
    refine ⟨?_, ?_, ?_, ?_⟩
    · rw [hhooks]
      split_ifs <;> simp_all
    · rw [hhooks]
      split_ifs <;> simp_all
    · rw [hhooks]
      split_ifs <;> simp_all
    · refine ⟨d.2 ++ action.next_task_select :: idle_hook_steps cfg d.1 t,
        switch_monitor_steps cfg (switched (idle_hook_state cfg E d.1 t) t) t,
        by simp, (hpost _).1, (hpost _).2, ?_⟩
      intro x
      rw [hhooks]
      split_ifs <;> simp [hs3]

/-- Witness of C10: task 103 is current and only the idle task is ready; the
pass switches to the idle task and calls the idle-entry hook before the
store. -/
theorem idle_transition_hooks_witness :
    (server_pass cfg16 sample_effect 1 k_sleep).map (fun r => r.2) =
      some [action.Comm 8199 8192, action.next_task_select,
        action._k_workload_monitor_idle_start, action.store_k_current_task 100] ∧
    ∃ r, server_pass cfg16 sample_effect 1 k_sleep = some r ∧
      (103 ≠ 100 →
        (action._k_workload_monitor_idle_start ∈ r.2 ↔
          ((server_command cfg16 sample_effect 8192
            { k_sleep with _k_command_stack := [] }).1.task_at 100).id = 0) ∧
        (action._k_workload_monitor_idle_end ∈ r.2 ↔
          ((server_command cfg16 sample_effect 8192
            { k_sleep with _k_command_stack := [] }).1.task_at 103).id = 0 ∧
          ((server_command cfg16 sample_effect 8192
            { k_sleep with _k_command_stack := [] }).1.task_at 100).id ≠ 0) ∧
        ¬ (action._k_workload_monitor_idle_start ∈ r.2 ∧
            action._k_workload_monitor_idle_end ∈ r.2) ∧
        ∃ pre post, r.2 = pre ++ action.store_k_current_task 100 :: post ∧
          action._k_workload_monitor_idle_start ∉ post ∧
          action._k_workload_monitor_idle_end ∉ post ∧
          (∀ x, action.store_k_current_task x ∉ pre)) ∧
      (103 = 100 →
        action._k_workload_monitor_idle_start ∉ r.2 ∧
        action._k_workload_monitor_idle_end ∉ r.2 ∧
        ∀ x, action.store_k_current_task x ∉ r.2) :=
  ⟨by decide,
   idle_transition_hooks cfg16 sample_effect 1 k_sleep { k_sleep with _k_command_stack := [] }
     8192 (server_command cfg16 sample_effect 8192 { k_sleep with _k_command_stack := [] })
     100 103 rfl rfl rfl (by decide) rfl⟩

end KServer

namespace Peripheral

/-! ## Lemmas on `memcpy` -/

/-- A copy that stays inside of both objects. -/
theorem memcpy_inside (dst src : List Nat) (off n : Nat)
    (hd : off + n ≤ dst.length) (hs : n ≤ src.length) :
    ∃ after, memcpy dst off src n = some after ∧
      after.length = dst.length ∧
      (∀ i, off ≤ i → i < off + n → after[i]? = src[i - off]?) ∧
      (∀ i, (i < off ∨ off + n ≤ i) → after[i]? = dst[i]?) := by
  refine ⟨dst.take off ++ (src.take n ++ dst.drop (off + n)), ?_, ?_, ?_, ?_⟩
  · unfold memcpy
    rw [if_pos ⟨hd, hs⟩]
  · simp
    omega
  · intro i h1 h2
    have hl : (dst.take off).length = off := by simp; omega
    have hn : (src.take n).length = n := by simp; omega
    rw [List.getElem?_append_right (by omega), hl,
      List.getElem?_append_left (by omega), List.getElem?_take_of_lt (by omega)]
  · intro i h
    have hl : (dst.take off).length = off := by simp; omega
    have hn : (src.take n).length = n := by simp; omega
    rcases h with h | h
    · rw [List.getElem?_append_left (by omega), List.getElem?_take_of_lt h]
    · rw [List.getElem?_append_right (by omega), hl,
        List.getElem?_append_right (by omega), hn, List.getElem?_drop]
      congr 1
      omega

/-- The sum compared with the buffer size is the sum of the two 16-bit
arguments without wrap-around. -/
theorem offset_plus_len_eq (offset len : Nat) (ho : offset < 2 ^ 16) (hl : len < 2 ^ 16) :
    offset_plus_len offset len = offset + len := by
  unfold offset_plus_len
  rw [Nat.mod_eq_of_lt ho, Nat.mod_eq_of_lt hl]
  apply Nat.mod_eq_of_lt
  omega

/-- The common shape of the four handlers meets the contract. -/
theorem write_contract_of_shape (size : Nat) (err : Int) (before buf : List Nat)
    (len offset : Nat)
    (hsz : before.length = size) (ho : offset < 2 ^ 16) (hl : len < 2 ^ 16)
    (hb : len ≤ buf.length) (he : err < 0) :
    write_contract size err before buf len offset
      (if offset_plus_len offset len > size then some (err, before)
       else (memcpy before (offset % 2 ^ 16) buf (len % 2 ^ 16)).map
         (fun v => (((len % 2 ^ 16 : Nat) : Int), v))) := by
  rw [offset_plus_len_eq offset len ho hl, Nat.mod_eq_of_lt ho, Nat.mod_eq_of_lt hl]
  by_cases h : offset + len > size
  · rw [if_pos h]
    refine ⟨err, before, rfl, hsz, ?_, ?_⟩
    · exact ⟨fun _ => h, fun _ => ⟨rfl, rfl⟩⟩
    · intro h'
      omega
  · rw [if_neg h]
    obtain ⟨after, hm, hlen, hin, hout⟩ :=
      memcpy_inside before buf offset len (by omega) hb
    rw [hm]
    refine ⟨(len : Int), after, rfl, by rw [hlen, hsz], ?_, ?_⟩
    · constructor
      · rintro ⟨h1, _⟩
        omega
      · intro h'
        exact absurd h' h
    · intro _
      exact ⟨rfl, hin, hout⟩

/-! ## Theorem on the write handlers -/

/-- C11: for every 16-bit `offset` and `len`, with an input of at least `len`
bytes, each of the write handlers `write_ct` (10-byte `ct`), `write_vnd`
(6-byte `vnd_value`), `write_long_vnd` (74-byte `buf`) and `write_signed`
(`signed_value`) returns the invalid-offset error and leaves its buffer
unchanged iff `offset + len`, computed without 16-bit wrap-around, exceeds the
size of the buffer; otherwise it returns `len`, the bytes
`[offset, offset + len)` of the buffer are those of the input, every other
byte of the buffer is unchanged, and no other buffer is written (the copy
stays inside of the buffer). -/
theorem write_handler_bounds (err : Int) (s : statics) (buf : List Nat) (len offset : Nat)
    (hs : sized s) (ho : offset < 2 ^ 16) (hl : len < 2 ^ 16)
    (hb : len ≤ buf.length) (he : err < 0) :
    write_contract 10 err s.ct buf len offset
      ((write_ct err s buf len offset).map (fun r => (r.1, r.2.ct))) ∧
    write_contract 6 err s.vnd_value buf len offset
      ((write_vnd err s buf len offset).map (fun r => (r.1, r.2.vnd_value))) ∧
    write_contract MAX_DATA err s.vnd_long_value.buf buf len offset
      ((write_long_vnd err s buf len offset).map (fun r => (r.1, r.2.vnd_long_value.buf))) ∧
    write_contract 4 err s.signed_value buf len offset
      ((write_signed err s buf len offset).map (fun r => (r.1, r.2.signed_value))) ∧
    (∀ r, write_ct err s buf len offset = some r →
      r.2 = { s with ct := r.2.ct, ct_update := r.2.ct_update }) ∧
    (∀ r, write_vnd err s buf len offset = some r →
      r.2 = { s with vnd_value := r.2.vnd_value }) ∧
    (∀ r, write_long_vnd err s buf len offset = some r →
      r.2 = { s with vnd_long_value :=
        { s.vnd_long_value with buf := r.2.vnd_long_value.buf } }) ∧
    (∀ r, write_signed err s buf len offset = some r →
      r.2 = { s with signed_value := r.2.signed_value }) := by
  obtain ⟨h1, h2, h3, _, h5⟩ := hs
  refine ⟨?_, ?_, ?_, ?_, ?_, ?_, ?_, ?_⟩
  · have h := write_contract_of_shape 10 err s.ct buf len offset h1 ho hl hb he
    unfold write_ct
    split_ifs at h ⊢
    · exact h
    · cases hm : memcpy s.ct (offset % 2 ^ 16) buf (len % 2 ^ 16) <;>
        (rw [hm] at h; simpa using h)
  · have h := write_contract_of_shape 6 err s.vnd_value buf len offset h2 ho hl hb he
    unfold write_vnd
    split_ifs at h ⊢
    · exact h
    · cases hm : memcpy s.vnd_value (offset % 2 ^ 16) buf (len % 2 ^ 16) <;>
        (rw [hm] at h; simpa using h)
  · have h := write_contract_of_shape MAX_DATA err s.vnd_long_value.buf buf len offset
      h3 ho hl hb he
    unfold write_long_vnd
    split_ifs at h ⊢
    · exact h
    · cases hm : memcpy s.vnd_long_value.buf (offset % 2 ^ 16) buf (len % 2 ^ 16) <;>
        (rw [hm] at h; simpa using h)
  · have h := write_contract_of_shape 4 err s.signed_value buf len offset h5 ho hl hb he
    unfold write_signed
    split_ifs at h ⊢
    · exact h
    · cases hm : memcpy s.signed_value (offset % 2 ^ 16) buf (len % 2 ^ 16) <;>
        (rw [hm] at h; simpa using h)
  · intro r hr
    unfold write_ct at hr
    split_ifs at hr
    · cases hr; rfl
    · cases hm : memcpy s.ct (offset % 2 ^ 16) buf (len % 2 ^ 16) <;> rw [hm] at hr <;>
        cases hr
      rfl
  · intro r hr
    unfold write_vnd at hr
    split_ifs at hr
    · cases hr; rfl
    · cases hm : memcpy s.vnd_value (offset % 2 ^ 16) buf (len % 2 ^ 16) <;>
        rw [hm] at hr <;> cases hr
      rfl
  · intro r hr
    unfold write_long_vnd at hr
    split_ifs at hr
    · cases hr; rfl
    · cases hm : memcpy s.vnd_long_value.buf (offset % 2 ^ 16) buf (len % 2 ^ 16) <;>
        rw [hm] at hr <;> cases hr
      rfl
  · intro r hr
    unfold write_signed at hr
    split_ifs at hr
    · cases hr; rfl
    · cases hm : memcpy s.signed_value (offset % 2 ^ 16) buf (len % 2 ^ 16) <;>
        rw [hm] at hr <;> cases hr
      rfl

/-- Witness of C11: the three bytes 1, 2, 3 written at offset 2 of the initial
buffers, the error being -7. The write is accepted by `write_ct`, and rejected
by `write_signed`, whose buffer has 4 bytes; a write of 2 bytes at offset 65535
is rejected although the sum wraps to 1 on 16 bits. -/
theorem write_handler_bounds_witness :
    (write_ct (-7) initial_statics [1, 2, 3] 3 2 =
        some (3, { initial_statics with ct := [223, 7, 1, 2, 3, 45, 30, 1, 0, 0],
                                        ct_update := 1 }) ∧
      write_signed (-7) initial_statics [1, 2, 3] 3 2 = some (-7, initial_statics) ∧
      write_vnd (-7) initial_statics [1, 2] 2 65535 = some (-7, initial_statics)) ∧
    (write_contract 10 (-7) initial_statics.ct [1, 2, 3] 3 2
      ((write_ct (-7) initial_statics [1, 2, 3] 3 2).map (fun r => (r.1, r.2.ct))) ∧
    write_contract 6 (-7) initial_statics.vnd_value [1, 2, 3] 3 2
      ((write_vnd (-7) initial_statics [1, 2, 3] 3 2).map (fun r => (r.1, r.2.vnd_value))) ∧
    write_contract MAX_DATA (-7) initial_statics.vnd_long_value.buf [1, 2, 3] 3 2
      ((write_long_vnd (-7) initial_statics [1, 2, 3] 3 2).map
        (fun r => (r.1, r.2.vnd_long_value.buf))) ∧
    write_contract 4 (-7) initial_statics.signed_value [1, 2, 3] 3 2
      ((write_signed (-7) initial_statics [1, 2, 3] 3 2).map
        (fun r => (r.1, r.2.signed_value))) ∧
    (∀ r, write_ct (-7) initial_statics [1, 2, 3] 3 2 = some r →
      r.2 = { initial_statics with ct := r.2.ct, ct_update := r.2.ct_update }) ∧
    (∀ r, write_vnd (-7) initial_statics [1, 2, 3] 3 2 = some r →
      r.2 = { initial_statics with vnd_value := r.2.vnd_value }) ∧
    (∀ r, write_long_vnd (-7) initial_statics [1, 2, 3] 3 2 = some r →
      r.2 = { initial_statics with vnd_long_value :=
        { initial_statics.vnd_long_value with buf := r.2.vnd_long_value.buf } }) ∧
    (∀ r, write_signed (-7) initial_statics [1, 2, 3] 3 2 = some r →
      r.2 = { initial_statics with signed_value := r.2.signed_value })) :=
  ⟨by decide,
   write_handler_bounds (-7) initial_statics [1, 2, 3] 3 2 (by unfold sized; decide)
     (by decide) (by decide) (by decide) (by decide)⟩

end Peripheral
